import Mathlib

/-!
Verification development for the atlas-metrics-sdk client library.

The Python sources (`atlas/models.py`, `atlas/time_helpers.py`,
`atlas/atlas_client.py`, `atlas/metrics.py`) are shallowly embedded below:
pure functions become Lean functions, Python exceptions become
`Except String`, Python `dict`s become insertion-ordered association lists,
Python `float` payloads become an exact-rational-or-NaN sum, and the three
standard-library collaborators the code leans on (`json.loads`,
`re.compile`/`Pattern.match`, `datetime.fromisoformat`/`strptime`) are
modelled as executable Lean functions over the grammar fragments the client
actually exchanges.
-/

set_option maxRecDepth 4000

namespace AtlasSDK

-- Equality on `Except` results is decidable componentwise.
deriving instance DecidableEq for Except

/-- Helper: is an `Except` an error? -/
def isErr {ε α : Type} : Except ε α → Bool
  | .error _ => true
  | .ok _ => false

/-- Model of a Python float payload: either the not-a-number sentinel
produced by `float("nan")` or an exact numeric value. Every numeral this
client exchanges is an exact decimal, so values are modelled as rationals. -/
inductive PyFloat where
  | nan : PyFloat
  | val : ℚ → PyFloat
deriving DecidableEq, Repr

/-- Python truthiness of an `Optional[float]`: `None` and `0.0` are falsy,
`nan` and every other float are truthy. -/
def pyFloatTruthy : Option PyFloat → Bool
  | none => false
  | some PyFloat.nan => true
  | some (PyFloat.val q) => decide (q ≠ 0)

/-- Model of a Python `datetime`: calendar fields plus an optional UTC
offset in minutes (`none` = naive datetime). -/
structure PyDateTime where
  year : Nat
  month : Nat
  day : Nat
  hour : Nat
  minute : Nat
  second : Nat
  tzOffsetMinutes : Option Int
deriving DecidableEq, Repr

/-- JSON values, as produced by Python's `json.loads`: object member order
is preserved. -/
inductive Json where
  | null : Json
  | bool : Bool → Json
  | num : ℚ → Json
  | str : String → Json
  | arr : List Json → Json
  | obj : List (String × Json) → Json

/-- `dict.get(key)` on a decoded JSON object; `none` both when the value is
not an object and when the key is absent. -/
def Json.get : Json → String → Option Json
  | .obj fields, k => fields.lookup k
  | _, _ => none

/-- Membership test `key in parsed` on a decoded JSON object. -/
def Json.hasKey (j : Json) (k : String) : Bool :=
  (j.get k).isSome

/-- Insertion-ordered association-list read, modelling `d[k]` / `d.get(k)`
on a Python dict. -/
def alGet {K V : Type} [DecidableEq K] : List (K × V) → K → Option V
  | [], _ => none
  | (k, v) :: rest, key => if k = key then some v else alGet rest key

/-- Insertion-ordered association-list write, modelling `d[k] = v` on a
Python dict: an existing key keeps its position and gets the new value, a
new key is appended. -/
def alSet {K V : Type} [DecidableEq K] : List (K × V) → K → V → List (K × V)
  | [], key, v => [(key, v)]
  | (k, w) :: rest, key, v =>
      if k = key then (k, v) :: rest else (k, w) :: alSet rest key v

/-- `dict.update(other)`: write every pair of `other` in order. -/
def alUpdate {K V : Type} [DecidableEq K]
    (d : List (K × V)) (other : List (K × V)) : List (K × V) :=
  other.foldl (fun acc kv => alSet acc kv.1 kv.2) d

/-! ## Model of `json.loads`

An executable JSON parser covering the grammar this client exchanges:
objects, arrays, strings (with the plain escapes), exact decimal numbers,
booleans and null. Exponent numerals and unicode escapes are outside the
model and rejected, as no payload of this API uses them. -/

/-- JSON insignificant whitespace. -/
def jsonWs (c : Char) : Bool :=
  c = ' ' || c = '\t' || c = '\n' || c = '\r'

/-- Drop leading JSON whitespace. -/
def skipWs (cs : List Char) : List Char := cs.dropWhile jsonWs

/-- The `{` character, spelled by code point. -/
def lbraceChar : Char := Char.ofNat 123

/-- The `}` character, spelled by code point. -/
def rbraceChar : Char := Char.ofNat 125

/-- Parse the body of a JSON string literal (after the opening quote),
returning the content and the remaining input. -/
def pStrChars : List Char → Except String (List Char × List Char)
  | [] => .error "unterminated string literal"
  | '"' :: cs => .ok ([], cs)
  | '\\' :: e :: cs =>
      if e = '"' || e = '\\' || e = '/' then
        match pStrChars cs with
        | .ok (s, r) => .ok (e :: s, r)
        | .error m => .error m
      else .error "unsupported escape"
  | ['\\'] => .error "unterminated escape"
  | c :: cs =>
      match pStrChars cs with
      | .ok (s, r) => .ok (c :: s, r)
      | .error m => .error m

/-- Split a leading run of ASCII digits from the input. -/
def takeDigits : List Char → List Char × List Char
  | [] => ([], [])
  | c :: cs =>
      if c.isDigit then
        let (d, r) := takeDigits cs
        (c :: d, r)
      else ([], c :: cs)

/-- Numeric value of a digit run. -/
def digitsToNat (ds : List Char) : Nat :=
  ds.foldl (fun n c => n * 10 + (c.toNat - 48)) 0

/-- Parse a JSON numeral (optional sign, integer part, optional fraction)
into an exact rational. -/
def pNum (cs : List Char) : Except String (ℚ × List Char) :=
  let (neg, cs1) := match cs with
    | '-' :: r => (true, r)
    | _ => (false, cs)
  let (ip, cs2) := takeDigits cs1
  if ip.isEmpty then .error "invalid numeral" else
  match cs2 with
  | '.' :: cs3 =>
      let (fp, cs4) := takeDigits cs3
      if fp.isEmpty then .error "invalid numeral" else
      match cs4 with
      | 'e' :: _ => .error "exponent numerals outside model"
      | 'E' :: _ => .error "exponent numerals outside model"
      | _ =>
        let mant : Int :=
          ((digitsToNat ip * 10 ^ fp.length + digitsToNat fp : Nat) : Int)
        let mant : Int := if neg then -mant else mant
        .ok (mkRat mant (10 ^ fp.length), cs4)
  | 'e' :: _ => .error "exponent numerals outside model"
  | 'E' :: _ => .error "exponent numerals outside model"
  | _ =>
      let mant : Int := ((digitsToNat ip : Nat) : Int)
      let mant : Int := if neg then -mant else mant
      .ok (mkRat mant 1, cs2)

/-- Parser mode: a plain value, the items of an array being accumulated, or
the members of an object being accumulated. -/
inductive PMode where
  | val : PMode
  | arrItems : List Json → PMode
  | objItems : List (String × Json) → PMode

/-- The fuel-indexed JSON parsing machine; fuel bounds recursion depth. -/
def pRun : Nat → PMode → List Char → Except String (Json × List Char)
  | 0, _, _ => .error "parser out of fuel"
  | Nat.succ fuel, PMode.val, cs =>
      match skipWs cs with
      | [] => .error "unexpected end of input"
      | c :: rest =>
          if c = '"' then
            match pStrChars rest with
            | .ok (s, r) => .ok (Json.str (String.mk s), r)
            | .error m => .error m
          else if c = '[' then
            match skipWs rest with
            | ']' :: r2 => .ok (Json.arr [], r2)
            | _ => pRun fuel (PMode.arrItems []) rest
          else if c = lbraceChar then
            match skipWs rest with
            | r1 :: r2 =>
                if r1 = rbraceChar then .ok (Json.obj [], r2)
                else pRun fuel (PMode.objItems []) rest
            | [] => .error "unterminated object"
          else if c = 't' then
            match rest with
            | 'r' :: 'u' :: 'e' :: r => .ok (Json.bool true, r)
            | _ => .error "invalid literal"
          else if c = 'f' then
            match rest with
            | 'a' :: 'l' :: 's' :: 'e' :: r => .ok (Json.bool false, r)
            | _ => .error "invalid literal"
          else if c = 'n' then
            match rest with
            | 'u' :: 'l' :: 'l' :: r => .ok (Json.null, r)
            | _ => .error "invalid literal"
          else if c.isDigit || c = '-' then
            match pNum (c :: rest) with
            | .ok (q, r) => .ok (Json.num q, r)
            | .error m => .error m
          else .error "unexpected character"
  | Nat.succ fuel, PMode.arrItems acc, cs =>
      match pRun fuel PMode.val cs with
      | .error m => .error m
      | .ok (v, r) =>
          match skipWs r with
          | ',' :: r2 => pRun fuel (PMode.arrItems (acc ++ [v])) r2
          | ']' :: r2 => .ok (Json.arr (acc ++ [v]), r2)
          | _ => .error "expected comma or end of array"
  | Nat.succ fuel, PMode.objItems acc, cs =>
      match skipWs cs with
      | '"' :: r =>
          match pStrChars r with
          | .error m => .error m
          | .ok (k, r2) =>
              match skipWs r2 with
              | ':' :: r3 =>
                  match pRun fuel PMode.val r3 with
                  | .error m => .error m
                  | .ok (v, r4) =>
                      match skipWs r4 with
                      | ',' :: r5 =>
                          pRun fuel (PMode.objItems (acc ++ [(String.mk k, v)])) r5
                      | e :: r5 =>
                          if e = rbraceChar then
                            .ok (Json.obj (acc ++ [(String.mk k, v)]), r5)
                          else .error "expected comma or end of object"
                      | [] => .error "unterminated object"
              | _ => .error "expected colon"
      | _ => .error "expected object key"

/-- Model of Python's `json.loads`: parse one JSON document and require
only whitespace to follow it. -/
def json_loads (s : String) : Except String Json :=
  let cs := s.toList
  match pRun (2 * cs.length + 8) PMode.val cs with
  | .error e => .error e
  | .ok (j, rest) =>
      if (skipWs rest).isEmpty then .ok j else .error "extra data"

/-! ## Model of `re.compile` / `Pattern.match`

Regular expressions over the operators this client's metric specs use:
literal characters, `.`, and the postfix repeaters `*`, `+`, `?`, plus
backslash escapes. Grouping, alternation, classes and anchors are outside
the model and rejected by compilation. `Pattern.match` semantics are
Python's: the pattern must match some prefix of the subject starting at
position 0. -/

/-- Regular-expression abstract syntax. -/
inductive Re where
  | emp : Re
  | eps : Re
  | chr : Char → Re
  | dot : Re
  | alt : Re → Re → Re
  | cat : Re → Re → Re
  | star : Re → Re
deriving DecidableEq, Repr

/-- Does the expression accept the empty string? -/
def Re.nullable : Re → Bool
  | .emp => false
  | .eps => true
  | .chr _ => false
  | .dot => false
  | .alt a b => a.nullable || b.nullable
  | .cat a b => a.nullable && b.nullable
  | .star _ => true

/-- Brzozowski derivative by one character. -/
def Re.deriv : Re → Char → Re
  | .emp, _ => .emp
  | .eps, _ => .emp
  | .chr c, x => if c = x then .eps else .emp
  | .dot, _ => .eps
  | .alt a b, x => .alt (a.deriv x) (b.deriv x)
  | .cat a b, x =>
      if a.nullable then .alt (.cat (a.deriv x) b) (b.deriv x)
      else .cat (a.deriv x) b
  | .star a, x => .cat (a.deriv x) (.star a)

/-- Prefix matching on character lists: true iff the expression matches
some prefix of the input (Python's `Pattern.match` returning a match). -/
def reMatchL : Re → List Char → Bool
  | r, [] => r.nullable
  | r, c :: cs => r.nullable || reMatchL (r.deriv c) cs

/-- `pattern.match(s)` is not `None`. -/
def reMatch (r : Re) (s : String) : Bool := reMatchL r s.toList

/-- Characters that carry regex syntax Python would interpret but this
model does not support; compiling them is an error, keeping the model
honest rather than silently treating them as literals. -/
def reUnsupported (c : Char) : Bool :=
  c = '(' || c = ')' || c = '[' || c = ']' || c = '|' ||
  c = '^' || c = '$' || c = lbraceChar || c = rbraceChar

/-- Pattern compilation loop: `acc` is the sequence of atoms read so far
(in reverse), `lastRepeatable` whether a postfix repeater may apply to the
last atom. -/
def reCompileL : List Re → Bool → List Char → Except String Re
  | acc, _, [] => .ok ((acc.reverse).foldr Re.cat Re.eps)
  | acc, lastRepeatable, c :: cs =>
      if c = '*' || c = '+' || c = '?' then
        match acc, lastRepeatable with
        | a :: acc', true =>
            let a' : Re :=
              if c = '*' then Re.star a
              else if c = '+' then Re.cat a (Re.star a)
              else Re.alt a Re.eps
            reCompileL (a' :: acc') false cs
        | _, _ => .error "nothing to repeat"
      else if c = '.' then reCompileL (Re.dot :: acc) true cs
      else if c = '\\' then
        match cs with
        | [] => .error "bad escape at end of pattern"
        | e :: cs' =>
            if e.isAlphanum then .error "escape class outside model"
            else reCompileL (Re.chr e :: acc) true cs'
      else if reUnsupported c then .error "pattern construct outside model"
      else reCompileL (Re.chr c :: acc) true cs

/-- Model of Python's `re.compile` over the supported fragment. -/
def re_compile (pattern : String) : Except String Re :=
  reCompileL [] false pattern.toList

/-! ## Models of `datetime.fromisoformat`, `datetime.strptime` and the
source file `atlas/time_helpers.py` -/

/-- Read exactly `n` ASCII digits into a number. -/
def pFixedDigits : Nat → List Char → Except String (Nat × List Char)
  | 0, cs => .ok (0, cs)
  | Nat.succ n, [] => .error ("expected " ++ toString (n + 1) ++ " more digits")
  | Nat.succ n, c :: cs =>
      if c.isDigit then
        match pFixedDigits n cs with
        | .ok (m, r) => .ok ((c.toNat - 48) * 10 ^ n + m, r)
        | .error e => .error e
      else .error "expected a digit"

/-- Expect one literal character. -/
def pLit (c : Char) : List Char → Except String (List Char)
  | [] => .error "unexpected end of input"
  | x :: cs => if x = c then .ok cs else .error "unexpected character"

/-- Shared date-time core `YYYY-MM-DD[sep]HH:MM:SS` with a caller-chosen
separator; used both by the ISO model and the strptime model. -/
def pDateTimeCore (sep : Char) (cs : List Char) :
    Except String (PyDateTime × List Char) := do
  let (y, cs) ← pFixedDigits 4 cs
  let cs ← pLit '-' cs
  let (mo, cs) ← pFixedDigits 2 cs
  let cs ← pLit '-' cs
  let (d, cs) ← pFixedDigits 2 cs
  let cs ← pLit sep cs
  let (h, cs) ← pFixedDigits 2 cs
  let cs ← pLit ':' cs
  let (mi, cs) ← pFixedDigits 2 cs
  let cs ← pLit ':' cs
  let (s, cs) ← pFixedDigits 2 cs
  if mo < 1 || 12 < mo || d < 1 || 31 < d || 23 < h || 59 < mi || 59 < s then
    .error "field value out of range"
  else
    .ok (⟨y, mo, d, h, mi, s, none⟩, cs)

/-- Model of Python's `datetime.fromisoformat`, restricted to the forms
this client produces and receives: `YYYY-MM-DD`, or a full timestamp with
a `T` or space separator and an optional `±HH:MM` offset. Raises
(`.error`) on anything else, as the real function does on malformed
input. -/
def fromisoformat (v : String) : Except String PyDateTime :=
  let cs := v.toList
  match pDateTimeCore 'T' cs with
  | .ok (dt, rest) => withOffset dt rest
  | .error _ =>
    match pDateTimeCore ' ' cs with
    | .ok (dt, rest) => withOffset dt rest
    | .error _ =>
      match (do
        let (y, cs) ← pFixedDigits 4 cs
        let cs ← pLit '-' cs
        let (mo, cs) ← pFixedDigits 2 cs
        let cs ← pLit '-' cs
        let (d, cs) ← pFixedDigits 2 cs
        if mo < 1 || 12 < mo || d < 1 || 31 < d then
          Except.error "field value out of range"
        else
          Except.ok ((⟨y, mo, d, 0, 0, 0, none⟩ : PyDateTime), cs)) with
      | .ok (dt, []) => .ok dt
      | .ok _ => .error "Invalid isoformat string"
      | .error _ => .error "Invalid isoformat string"
where
  /-- Parse the optional trailing `±HH:MM` offset. -/
  withOffset (dt : PyDateTime) : List Char → Except String PyDateTime
    | [] => .ok dt
    | c :: rest =>
        if c = '+' || c = '-' then
          match (do
            let (oh, r) ← pFixedDigits 2 rest
            let r ← pLit ':' r
            let (om, r) ← pFixedDigits 2 r
            Except.ok ((oh, om), r)) with
          | .ok ((oh, om), []) =>
              let total : Int := (oh : Int) * 60 + (om : Int)
              .ok { dt with tzOffsetMinutes := some (if c = '-' then -total else total) }
          | _ => .error "Invalid isoformat string"
        else .error "Invalid isoformat string"

/-- Model of `datetime.strptime(v, "%Y-%m-%d %H:%M:%S")`: the exact
space-separated format, no timezone, full consumption required. -/
def strptime_ymd_hms (v : String) : Except String PyDateTime :=
  match pDateTimeCore ' ' v.toList with
  | .ok (dt, []) => .ok dt
  | .ok _ => .error "unconverted data remains"
  | .error e => .error e

/-- Python's `str.strip()`: remove leading and trailing whitespace. -/
def pyStrip (s : String) : String :=
  String.mk (((s.toList.dropWhile Char.isWhitespace).reverse.dropWhile
    Char.isWhitespace).reverse)

/-- Python's `str.endswith` for a single-character suffix. -/
def endsWithChar (s : String) (c : Char) : Bool :=
  match s.toList.getLast? with
  | some x => x = c
  | none => false

/-- `atlas/time_helpers.py parse_dt` on a present string: strip, rewrite a
trailing `Z` to `+00:00`, try `fromisoformat`, fall back to
`strptime(v, "%Y-%m-%d %H:%M:%S")`, and default a naive result to UTC. -/
def parse_dt_str (value : String) : Except String PyDateTime :=
  let v := pyStrip value
  let v := if endsWithChar v 'Z' then String.mk (v.toList.dropLast) ++ "+00:00" else v
  let parsed :=
    match fromisoformat v with
    | .ok dt => Except.ok dt
    | .error _ => strptime_ymd_hms v
  match parsed with
  | .error e => .error e
  | .ok dt =>
      if dt.tzOffsetMinutes.isNone then .ok { dt with tzOffsetMinutes := some 0 }
      else .ok dt

/-- `parse_dt` including the `None` shortcut of the source. -/
def parse_dt (value : Option String) : Except String (Option PyDateTime) :=
  match value with
  | none => .ok none
  | some s =>
      match parse_dt_str s with
      | .ok dt => .ok (some dt)
      | .error e => .error e

/-! ## Data model (`atlas/models.py`) -/

/-- `MetricType` construct-kind enumeration, in declaration order. -/
inductive MetricType where
  | control_point : MetricType
  | metric : MetricType
  | output : MetricType
  | condition : MetricType
  | setting : MetricType
deriving DecidableEq, Repr

/-- The `StrEnum` value of a `MetricType`. -/
def MetricType.value : MetricType → String
  | .control_point => "control_point"
  | .metric => "metric"
  | .output => "output"
  | .condition => "condition"
  | .setting => "setting"

/-- Iteration order of `for metric_type in MetricType`. -/
def metricTypeList : List MetricType :=
  [MetricType.control_point, MetricType.metric, MetricType.output,
   MetricType.condition, MetricType.setting]

/-- `AggregateBy` enumeration. -/
inductive AggregateBy where
  | avg : AggregateBy
  | min : AggregateBy
  | max : AggregateBy
  | first : AggregateBy
  | last : AggregateBy
deriving DecidableEq, Repr

/-- The `StrEnum` value, which is also what `str(...)` returns on it. -/
def AggregateBy.value : AggregateBy → String
  | .avg => "avg"
  | .min => "min"
  | .max => "max"
  | .first => "first"
  | .last => "last"

/-- Enum construction `AggregateBy(a)` from a string: `ValueError` when the
string is not a member value. -/
def AggregateBy.fromString (a : String) : Except String AggregateBy :=
  if a = "avg" then .ok .avg
  else if a = "min" then .ok .min
  else if a = "max" then .ok .max
  else if a = "first" then .ok .first
  else if a = "last" then .ok .last
  else .error ("ValueError: " ++ a ++ " is not a valid AggregateBy")

/-- `ControlPoint` construct record. -/
structure ControlPoint where
  id : String
  «alias» : String
  bias : String
  type : String
  unit : Option String := none
deriving DecidableEq, Repr

/-- `Metric` construct record. -/
structure Metric where
  id : String
  «alias» : String
  kind : String
  unit : Option String := none
deriving DecidableEq, Repr

/-- `Output` construct record. -/
structure Output where
  id : String
  «alias» : String
  kind : String
  unit : Option String := none
deriving DecidableEq, Repr

/-- `Condition` construct record. -/
structure Condition where
  id : String
  «alias» : String
deriving DecidableEq, Repr

/-- `Setting` construct record; its alias is its name. -/
structure Setting where
  id : String
  name : String
  kind : String
  unit : Option String := none
deriving DecidableEq, Repr

/-- The `ControlledDeviceConstruct` union of the five construct shapes. -/
inductive ControlledDeviceConstruct where
  | cp : ControlPoint → ControlledDeviceConstruct
  | met : Metric → ControlledDeviceConstruct
  | out : Output → ControlledDeviceConstruct
  | cond : Condition → ControlledDeviceConstruct
  | set : Setting → ControlledDeviceConstruct
deriving DecidableEq, Repr

/-- Duck-typed `.id` accessor across the construct union. -/
def ControlledDeviceConstruct.id : ControlledDeviceConstruct → String
  | .cp x => x.id
  | .met x => x.id
  | .out x => x.id
  | .cond x => x.id
  | .set x => x.id

/-- Duck-typed `.alias` accessor (a `Setting`'s alias is its name). -/
def ControlledDeviceConstruct.alias : ControlledDeviceConstruct → String
  | .cp x => x.alias
  | .met x => x.alias
  | .out x => x.alias
  | .cond x => x.alias
  | .set x => x.name

/-- Duck-typed `.metric_type` accessor. -/
def ControlledDeviceConstruct.metric_type : ControlledDeviceConstruct → MetricType
  | .cp _ => MetricType.control_point
  | .met _ => MetricType.metric
  | .out _ => MetricType.output
  | .cond _ => MetricType.condition
  | .set _ => MetricType.setting

/-- `Connection` record. -/
structure Connection where
  device_id : String
  kind : String
deriving DecidableEq, Repr

/-- `Device` record. `kind` stays a plain string, as in the source. -/
structure Device where
  id : String
  «alias» : String
  kind : String
  name : String
  control_points : List ControlPoint := []
  metrics : List Metric := []
  outputs : List Output := []
  conditions : List Condition := []
  settings : List Setting := []
  upstream : List Connection := []
  downstream : List Connection := []
deriving DecidableEq, Repr

/-- `getattr(device, f"(metric_type.value)s")`: the device's construct list
selected by construct kind, injected into the union. -/
def Device.constructsOfKind (d : Device) : MetricType → List ControlledDeviceConstruct
  | .control_point => d.control_points.map ControlledDeviceConstruct.cp
  | .metric => d.metrics.map ControlledDeviceConstruct.met
  | .output => d.outputs.map ControlledDeviceConstruct.out
  | .condition => d.conditions.map ControlledDeviceConstruct.cond
  | .setting => d.settings.map ControlledDeviceConstruct.set

/-- `Agent` record. -/
structure Agent where
  agent_id : String
deriving DecidableEq, Repr

/-- `Facility` record. -/
structure Facility where
  organization_id : String
  facility_id : String
  display_name : String
  short_name : String
  address : String
  timezone : String
  agents : List Agent
deriving DecidableEq, Repr

/-- `HistoricalReadingQuery` record. -/
structure HistoricalReadingQuery where
  source_id : String
  aggregate_by : List AggregateBy
deriving DecidableEq, Repr

/-- `HistoricalSettingQuerySource` record. -/
structure HistoricalSettingQuerySource where
  device_id : Option String := none
  setting_alias : Option String := none
  setting_id : Option String := none
deriving DecidableEq, Repr

/-- `HistoricalSettingQuery` record. -/
structure HistoricalSettingQuery where
  source : HistoricalSettingQuerySource
  aggregate_by : List AggregateBy := []
deriving DecidableEq, Repr

/-- `ReadingNumberValue`: the raw/scaled numeric pair of a reading. -/
structure ReadingNumberValue where
  raw : Option PyFloat := none
  scaled : Option PyFloat := none
deriving DecidableEq, Repr

/-- `ReadingResult`: one per-aggregation element of a reading record. -/
structure ReadingResult where
  aggregation : Option AggregateBy := none
  numberValue : Option ReadingNumberValue := none
  boolValue : Option Bool := none
  enumValue : Option String := none
deriving DecidableEq, Repr

/-- `ReadingSourceResult`: one decoded reading stream record. -/
structure ReadingSourceResult where
  time : String
  source_id : String
  forced : Option Bool := none
  results : List ReadingResult
deriving DecidableEq, Repr

/-- `SettingResult`: one per-aggregation element of a setting record.
The `sequenceValue`/`scheduleValue` payloads are carried as raw decoded
JSON: no code path of this library reads into them, so their nested
pydantic models are not unfolded here. -/
structure SettingResult where
  aggregation : Option AggregateBy := none
  unset : Option Bool := none
  enumValue : Option String := none
  boolValue : Option Bool := none
  numberValue : Option PyFloat := none
  sequenceValue : Option Json := none
  scheduleValue : Option Json := none

/-- `SettingSourceResult`: one decoded setting stream record. -/
structure SettingSourceResult where
  time : String
  setting_id : String
  results : List SettingResult

/-- `DeviceKind` enumeration. -/
inductive DeviceKind where
  | compressor : DeviceKind
  | evaporator : DeviceKind
  | condenser : DeviceKind
  | vessel : DeviceKind
  | energy_meter : DeviceKind
deriving DecidableEq, Repr

/-- The `StrEnum` value of a `DeviceKind`. -/
def DeviceKind.value : DeviceKind → String
  | .compressor => "compressor"
  | .evaporator => "evaporator"
  | .condenser => "condenser"
  | .vessel => "vessel"
  | .energy_meter => "energy meter"

/-- Enum construction `DeviceKind(s)` from a string (pydantic coercion of
a plain string into the enum): `ValueError` when not a member value. -/
def DeviceKind.fromString (s : String) : Except String DeviceKind :=
  if s = "compressor" then .ok .compressor
  else if s = "evaporator" then .ok .evaporator
  else if s = "condenser" then .ok .condenser
  else if s = "vessel" then .ok .vessel
  else if s = "energy meter" then .ok .energy_meter
  else .error ("ValueError: " ++ s ++ " is not a valid DeviceKind")

/-- `device_metric_mapping`: the metric vocabulary (`[e.value for e in ...]`)
per device kind. The Python dict has no entry for `energy_meter`, modelled
here as `none`; indexing it with that kind is a `KeyError`. -/
def device_metric_mapping : DeviceKind → Option (List String)
  | .compressor => some ["DischargePressure", "DischargeTemperature",
      "SuctionPressure", "SuctionTemperature"]
  | .condenser => some ["DischargePressure", "DischargeTemperature"]
  | .evaporator => some ["SupplyTemperature", "ReturnTemperature"]
  | .vessel => some ["Pressure"]
  | .energy_meter => none

/-- `DeviceMetric` metric-spec record (post-validation: `metric_type` is
always populated, either explicitly or by the model validator). -/
structure DeviceMetric where
  name : String := ""
  alias_regex : String := ""
  device_kind : DeviceKind
  metric_type : MetricType
deriving DecidableEq, Repr

/-- `is_valid_metric` from `atlas/models.py`: a name-based spec is valid
iff its name is in its device kind's vocabulary (indexing the mapping may
raise `KeyError`); otherwise validity is a non-empty `alias_regex`. -/
def is_valid_metric (metric : DeviceMetric) : Except String Bool :=
  if metric.name ≠ "" then
    match device_metric_mapping metric.device_kind with
    | none => .error ("KeyError: " ++ metric.device_kind.value)
    | some valid_metrics => .ok (metric.name ∈ valid_metrics)
  else
    .ok (metric.alias_regex ≠ "")

/-! ## NDJSON stream decoding (`atlas/atlas_client.py`)

The bodies of `get_historical_reading_values` and
`get_historical_setting_values` iterate the streamed response lines:
`if not line: continue`, then `json.loads(line)`, then a field-renaming
transformation, then pydantic validation of the transformed record. Any
`ValueError` (malformed JSON, validation failure) is caught by the
surrounding `except ValueError` and re-raised as `AtlasHTTPError`, aborting
the whole call; here every raised error is an `Except.error`. -/

/-- Pydantic validation of an `Optional[float]` member of a JSON object:
absent and `null` give `None`, a numeral gives the float. -/
def validateOptFloatField (j : Json) (k : String) : Except String (Option PyFloat) :=
  match j.get k with
  | none => .ok none
  | some Json.null => .ok none
  | some (Json.num q) => .ok (some (PyFloat.val q))
  | some _ => .error ("ValidationError: " ++ k ++ " is not a float")

/-- Build and validate one element of `transformed["results"]` for a
reading record: only the wire-present fields are carried over, then
`ReadingResult` validates them. -/
def decodeReadingRes (res : Json) : Except String ReadingResult := do
  match res with
  | Json.obj _ => do
      let aggregation ← (match res.get "aggregation" with
        | none => Except.ok none
        | some Json.null => Except.ok none
        | some (Json.str s) => (AggregateBy.fromString s).map some
        | some _ => Except.error "ValidationError: aggregation")
      let numberValue ← (match res.get "numberValue" with
        | none => Except.ok none
        | some Json.null => Except.ok none
        | some (Json.obj nvFields) => do
            let nv := Json.obj nvFields
            let raw ← validateOptFloatField nv "raw"
            let scaled ← validateOptFloatField nv "scaled"
            Except.ok (some (⟨raw, scaled⟩ : ReadingNumberValue))
        | some _ => Except.error "ValidationError: numberValue")
      let boolValue ← (match res.get "boolValue" with
        | none => Except.ok none
        | some Json.null => Except.ok none
        | some (Json.bool b) => Except.ok (some b)
        | some _ => Except.error "ValidationError: boolValue")
      let enumValue ← (match res.get "enumValue" with
        | none => Except.ok none
        | some Json.null => Except.ok none
        | some (Json.str s) => Except.ok (some s)
        | some _ => Except.error "ValidationError: enumValue")
      .ok ⟨aggregation, numberValue, boolValue, enumValue⟩
  | _ => .error "TypeError: result element is not an object"

/-- Decode one parsed reading NDJSON line: the `sourceId` to `source_id`
renaming, the `forced` default of `False`, and pydantic validation of the
transformed record. -/
def decodeReadingLineJson (parsed : Json) : Except String ReadingSourceResult := do
  let time ← (match parsed.get "time" with
    | some (Json.str s) => Except.ok s
    | _ => Except.error "ValidationError: time must be a string")
  let source_id ← (match parsed.get "sourceId" with
    | some (Json.str s) => Except.ok s
    | _ => Except.error "ValidationError: source_id must be a string")
  let forced ← (match parsed.get "forced" with
    | none => Except.ok (some false)
    | some Json.null => Except.ok none
    | some (Json.bool b) => Except.ok (some b)
    | some _ => Except.error "ValidationError: forced")
  let resArr ← (match parsed.get "results" with
    | none => Except.ok []
    | some (Json.arr xs) => Except.ok xs
    | some _ => Except.error "TypeError: results is not iterable")
  let results ← resArr.mapM decodeReadingRes
  .ok ⟨time, source_id, forced, results⟩

/-- Decode one raw reading NDJSON line: `json.loads` then transform. -/
def decodeReadingLine (line : String) : Except String ReadingSourceResult := do
  let parsed ← json_loads line
  decodeReadingLineJson parsed

/-- The reading stream loop: skip falsy (empty) lines, decode the rest in
order, abort on the first error. -/
def decodeReadingLines : List String → Except String (List ReadingSourceResult)
  | [] => .ok []
  | line :: rest =>
      if line = "" then decodeReadingLines rest
      else
        match decodeReadingLine line with
        | .error e => .error e
        | .ok r =>
            match decodeReadingLines rest with
            | .error e => .error e
            | .ok rs => .ok (r :: rs)

/-- Build and validate one element of `transformed["results"]` for a
setting record. `sequenceValue`/`scheduleValue` are carried as raw JSON
(their nested models are never read by this library). -/
def decodeSettingRes (res : Json) : Except String SettingResult := do
  match res with
  | Json.obj _ => do
      let aggregation ← (match res.get "aggregation" with
        | none => Except.ok none
        | some Json.null => Except.ok none
        | some (Json.str s) => (AggregateBy.fromString s).map some
        | some _ => Except.error "ValidationError: aggregation")
      let unset ← (match res.get "unset" with
        | none => Except.ok none
        | some Json.null => Except.ok none
        | some (Json.bool b) => Except.ok (some b)
        | some _ => Except.error "ValidationError: unset")
      let enumValue ← (match res.get "enumValue" with
        | none => Except.ok none
        | some Json.null => Except.ok none
        | some (Json.str s) => Except.ok (some s)
        | some _ => Except.error "ValidationError: enumValue")
      let boolValue ← (match res.get "boolValue" with
        | none => Except.ok none
        | some Json.null => Except.ok none
        | some (Json.bool b) => Except.ok (some b)
        | some _ => Except.error "ValidationError: boolValue")
      let numberValue ← (match res.get "numberValue" with
        | none => Except.ok none
        | some Json.null => Except.ok none
        | some (Json.num q) => Except.ok (some (PyFloat.val q))
        | some _ => Except.error "ValidationError: numberValue")
      let sequenceValue := res.get "sequenceValue"
      let scheduleValue := res.get "scheduleValue"
      .ok ⟨aggregation, unset, enumValue, boolValue, numberValue,
           sequenceValue, scheduleValue⟩
  | _ => .error "TypeError: result element is not an object"

/-- Decode one parsed setting NDJSON line (`settingId` to `setting_id`). -/
def decodeSettingLineJson (parsed : Json) : Except String SettingSourceResult := do
  let time ← (match parsed.get "time" with
    | some (Json.str s) => Except.ok s
    | _ => Except.error "ValidationError: time must be a string")
  let setting_id ← (match parsed.get "settingId" with
    | some (Json.str s) => Except.ok s
    | _ => Except.error "ValidationError: setting_id must be a string")
  let resArr ← (match parsed.get "results" with
    | none => Except.ok []
    | some (Json.arr xs) => Except.ok xs
    | some _ => Except.error "TypeError: results is not iterable")
  let results ← resArr.mapM decodeSettingRes
  .ok ⟨time, setting_id, results⟩

/-- Decode one raw setting NDJSON line. -/
def decodeSettingLine (line : String) : Except String SettingSourceResult := do
  let parsed ← json_loads line
  decodeSettingLineJson parsed

/-- The setting stream loop: skip falsy (empty) lines, decode the rest in
order, abort on the first error. -/
def decodeSettingLines : List String → Except String (List SettingSourceResult)
  | [] => .ok []
  | line :: rest =>
      if line = "" then decodeSettingLines rest
      else
        match decodeSettingLine line with
        | .error e => .error e
        | .ok r =>
            match decodeSettingLines rest with
            | .error e => .error e
            | .ok rs => .ok (r :: rs)

/-! ## Metric matcher (`MetricsReader._get_filtered_constructs_by_id`) -/

/-- The inner construct scan of one construct kind: a construct is added
to the result dict when its alias is in the exact-name set, or else when
some compiled pattern prefix-matches its alias. -/
def scanConstructs (metric_names : List String) (metric_regexps : List Re) :
    List (String × ControlledDeviceConstruct) → List ControlledDeviceConstruct →
    List (String × ControlledDeviceConstruct)
  | result, [] => result
  | result, construct :: rest =>
      let result :=
        if construct.alias ∈ metric_names then
          alSet result construct.id construct
        else if metric_regexps.any (fun p => reMatch p construct.alias) then
          alSet result construct.id construct
        else result
      scanConstructs metric_names metric_regexps result rest

/-- One iteration of `for metric_type in MetricType`: collect the exact
names and compile the regex patterns of this kind's specs (compilation
errors raise before the emptiness check, as in the source), skip the kind
when both are empty, otherwise scan the device's constructs of the kind. -/
def matcherKindStep (device : Device) (metrics : List DeviceMetric)
    (result : List (String × ControlledDeviceConstruct)) (metric_type : MetricType) :
    Except String (List (String × ControlledDeviceConstruct)) := do
  let metric_names :=
    (metrics.filter (fun m => decide (m.metric_type = metric_type))).map
      (fun m => m.name)
  let metric_regexps ←
    ((metrics.filter (fun m =>
        decide (m.metric_type = metric_type) && decide (m.alias_regex ≠ ""))).map
      (fun m => m.alias_regex)).mapM re_compile
  if metric_names.isEmpty && metric_regexps.isEmpty then
    .ok result
  else
    .ok (scanConstructs metric_names metric_regexps result
      (device.constructsOfKind metric_type))

/-- `_get_filtered_constructs_by_id`: fold the per-kind step over the five
construct kinds in enum order. -/
def get_filtered_constructs_by_id (device : Device) (metrics : List DeviceMetric) :
    Except String (List (String × ControlledDeviceConstruct)) :=
  metricTypeList.foldlM (matcherKindStep device metrics) []

/-! ## Grouping (`MetricsReader._process_historical_values`) -/

/-- One per-facility time-series group entry (`MetricValues`). -/
structure MetricValue where
  timestamp : PyDateTime
  value : PyFloat
deriving DecidableEq, Repr

/-- The `MetricValues` record appended to a facility's result list; also
the value shape stored in the `grouped` dict. -/
structure MetricValues where
  metric : DeviceMetric
  device_name : String
  device_alias : String
  device_id : String
  aggregation : String
  values : List MetricValue
deriving DecidableEq, Repr

/-- The key of the `grouped` dict:
`(device.id, source.id, source.metric_type, aggregation_key)`. -/
abbrev GroupKey : Type := String × String × MetricType × String

/-- Creation of a group's dict entry: constructing the embedded
`DeviceMetric` coerces the device's plain-string kind into the
`DeviceKind` enum, which raises when the string is not a member value. -/
def mkGroup (source : ControlledDeviceConstruct) (device : Device)
    (aggregation_key : String) : Except String MetricValues := do
  let dk ← DeviceKind.fromString device.kind
  .ok ⟨⟨source.alias, "", dk, source.metric_type⟩,
       device.name, device.alias, device.id, aggregation_key, []⟩

/-- The aggregation component of a group key:
`str(res.aggregation) if res.aggregation else "avg"`. -/
def aggKeyOf (aggregation : Option AggregateBy) : String :=
  match aggregation with
  | some a => a.value
  | none => "avg"

/-- One element of a reading record's `results` list: ensure the group
exists, then append one sample whose value is the scaled number, or the
not-a-number sentinel when `numberValue` is absent (a present
`numberValue` with no scaled field fails `MetricValue` validation). -/
def readingResStep (device : Device) (source : ControlledDeviceConstruct)
    (timestamp : PyDateTime) (grouped : List (GroupKey × MetricValues))
    (res : ReadingResult) : Except String (List (GroupKey × MetricValues)) := do
  let aggregation_key := aggKeyOf res.aggregation
  let group_key : GroupKey := (device.id, source.id, source.metric_type, aggregation_key)
  let base ← (match alGet grouped group_key with
    | none => mkGroup source device aggregation_key
    | some g => Except.ok g)
  let value ← (match res.numberValue with
    | some nv =>
        match nv.scaled with
        | some v => Except.ok v
        | none => Except.error "ValidationError: value must be a float, got None"
    | none => Except.ok PyFloat.nan)
  .ok (alSet grouped group_key
    { base with values := base.values ++ [⟨timestamp, value⟩] })

/-- One element of a setting record's `results` list: ensure the group
exists, then append one sample only when `numberValue` is truthy (present
and non-zero); otherwise the group is left with its values unchanged. -/
def settingResStep (device : Device) (source : ControlledDeviceConstruct)
    (timestamp : PyDateTime) (grouped : List (GroupKey × MetricValues))
    (res : SettingResult) : Except String (List (GroupKey × MetricValues)) := do
  let aggregation_key := aggKeyOf res.aggregation
  let group_key : GroupKey := (device.id, source.id, source.metric_type, aggregation_key)
  let base ← (match alGet grouped group_key with
    | none => mkGroup source device aggregation_key
    | some g => Except.ok g)
  if pyFloatTruthy res.numberValue then
    match res.numberValue with
    | some v =>
        .ok (alSet grouped group_key
          { base with values := base.values ++ [⟨timestamp, v⟩] })
    | none => .ok (alSet grouped group_key base)
  else
    .ok (alSet grouped group_key base)

/-- One reading stream record: resolve the source construct and owning
device through the two maps (`KeyError` when absent), parse the record
timestamp, then fold the per-element step over `results`. -/
def processReadingRecord (device_id_to_device : List (String × Device))
    (filtered_constructs_by_id : List (String × ControlledDeviceConstruct))
    (construct_id_to_device_id : List (String × String))
    (grouped : List (GroupKey × MetricValues))
    (source_result : ReadingSourceResult) :
    Except String (List (GroupKey × MetricValues)) := do
  let source ← (match alGet filtered_constructs_by_id source_result.source_id with
    | some s => Except.ok s
    | none => Except.error ("KeyError: " ++ source_result.source_id))
  let device_id ← (match alGet construct_id_to_device_id source_result.source_id with
    | some i => Except.ok i
    | none => Except.error ("KeyError: " ++ source_result.source_id))
  let device ← (match alGet device_id_to_device device_id with
    | some d => Except.ok d
    | none => Except.error ("KeyError: " ++ device_id))
  let timestamp ← parse_dt_str source_result.time
  source_result.results.foldlM (readingResStep device source timestamp) grouped

/-- One setting stream record, keyed by `setting_id`. -/
def processSettingRecord (device_id_to_device : List (String × Device))
    (filtered_constructs_by_id : List (String × ControlledDeviceConstruct))
    (construct_id_to_device_id : List (String × String))
    (grouped : List (GroupKey × MetricValues))
    (source_result : SettingSourceResult) :
    Except String (List (GroupKey × MetricValues)) := do
  let source ← (match alGet filtered_constructs_by_id source_result.setting_id with
    | some s => Except.ok s
    | none => Except.error ("KeyError: " ++ source_result.setting_id))
  let device_id ← (match alGet construct_id_to_device_id source_result.setting_id with
    | some i => Except.ok i
    | none => Except.error ("KeyError: " ++ source_result.setting_id))
  let device ← (match alGet device_id_to_device device_id with
    | some d => Except.ok d
    | none => Except.error ("KeyError: " ++ device_id))
  let timestamp ← parse_dt_str source_result.time
  source_result.results.foldlM (settingResStep device source timestamp) grouped

/-- `_process_historical_values` up to its final flush: fold the reading
records, then the setting records, into the `grouped` dict. -/
def process_historical_values (device_id_to_device : List (String × Device))
    (filtered_constructs_by_id : List (String × ControlledDeviceConstruct))
    (construct_id_to_device_id : List (String × String))
    (reading_results : List ReadingSourceResult)
    (setting_results : List SettingSourceResult) :
    Except String (List (GroupKey × MetricValues)) := do
  let grouped ← reading_results.foldlM
    (processReadingRecord device_id_to_device filtered_constructs_by_id
      construct_id_to_device_id) []
  setting_results.foldlM
    (processSettingRecord device_id_to_device filtered_constructs_by_id
      construct_id_to_device_id) grouped

/-- The final flush of `_process_historical_values`: the facility's
appended `MetricValues` list is the grouped dict's values in insertion
order. -/
def processedMetricValues (device_id_to_device : List (String × Device))
    (filtered_constructs_by_id : List (String × ControlledDeviceConstruct))
    (construct_id_to_device_id : List (String × String))
    (reading_results : List ReadingSourceResult)
    (setting_results : List SettingSourceResult) :
    Except String (List MetricValues) :=
  (process_historical_values device_id_to_device filtered_constructs_by_id
    construct_id_to_device_id reading_results setting_results).map
    (fun grouped => grouped.map Prod.snd)

/-! ## The client calls and the reader orchestrator
(`atlas/atlas_client.py`, `atlas/metrics.py MetricsReader.read`)

The HTTP transport is the black-box collaborator: an `Env` supplies what
each endpoint would return (facility list, device list per facility, and
the raw NDJSON lines of the two historical-value streams), and every
function returns the ordered list of network requests it issued alongside
its result, so that "before any network call" claims are statements about
the returned trace. Request payload construction (URL and JSON body) is
elided: no claim observes it. -/

/-- One network request issued through the transport. -/
inductive NetCall where
  | listFacilities : NetCall
  | listDevices : String → String → NetCall
  | readingsQuery : String → String → NetCall
  | settingsQuery : String → String → NetCall
deriving DecidableEq, Repr

/-- The transport collaborator's responses. -/
structure Env where
  facilities : List Facility
  devicesFor : String → String → List Device
  readingLines : List String
  settingLines : List String

/-- `dt is not None and dt.tzinfo is None`: a present but naive datetime. -/
def isNaiveOpt : Option PyDateTime → Bool
  | none => false
  | some dt => dt.tzOffsetMinutes.isNone

/-- `AtlasClient.get_historical_reading_values`: reject naive `start`/`end`
and an empty query list before issuing the request; then POST the query
(one `readingsQuery` trace entry) and decode the streamed NDJSON lines. -/
def get_historical_reading_values (env : Env) (org_id agent_id : String)
    (start «end» : Option PyDateTime) (queries : List HistoricalReadingQuery) :
    List NetCall × Except String (List ReadingSourceResult) :=
  if isNaiveOpt start then ([], .error "start must be timezone aware")
  else if isNaiveOpt «end» then ([], .error "end must be timezone aware")
  else if queries.isEmpty then
    ([], .error "queries must be a non-empty list of ReadingQuery")
  else
    ([NetCall.readingsQuery org_id agent_id], decodeReadingLines env.readingLines)

/-- `AtlasClient.get_historical_setting_values`, symmetric to the reading
call. -/
def get_historical_setting_values (env : Env) (org_id agent_id : String)
    (start «end» : Option PyDateTime) (queries : List HistoricalSettingQuery) :
    List NetCall × Except String (List SettingSourceResult) :=
  if isNaiveOpt start then ([], .error "start must be timezone aware")
  else if isNaiveOpt «end» then ([], .error "end must be timezone aware")
  else if queries.isEmpty then
    ([], .error "queries must be a non-empty list of HistoricalSettingQuery")
  else
    ([NetCall.settingsQuery org_id agent_id], decodeSettingLines env.settingLines)

/-- `AtlasClient.filter_facilities`: list all facilities (one
`listFacilities` trace entry), return them all on an empty filter, else
keep the named ones and fail when any name is missing. -/
def filter_facilities (env : Env) (filter : List String) :
    List NetCall × Except String (List Facility) :=
  let all_facilities := env.facilities
  if filter.isEmpty then ([NetCall.listFacilities], .ok all_facilities)
  else
    let facilities := all_facilities.filter (fun f => decide (f.short_name ∈ filter))
    if facilities.length ≠ filter.length then
      ([NetCall.listFacilities], .error "Facilities not found")
    else ([NetCall.listFacilities], .ok facilities)

/-- `MetricsReader._get_historical_reading_values`: the facility-level
wrapper that re-raises any error with the facility's display name. -/
def mr_get_historical_reading_values (env : Env) (facility : Facility)
    (agent_id : String) (start «end» : Option PyDateTime)
    (queries : List HistoricalReadingQuery) :
    List NetCall × Except String (List ReadingSourceResult) :=
  let (log, r) := get_historical_reading_values env facility.organization_id
    agent_id start «end» queries
  (log, match r with
    | .ok v => .ok v
    | .error e => .error ("Error retrieving historical values for facility "
        ++ facility.display_name ++ ": " ++ e))

/-- `MetricsReader._get_historical_setting_values`. -/
def mr_get_historical_setting_values (env : Env) (facility : Facility)
    (agent_id : String) (start «end» : Option PyDateTime)
    (queries : List HistoricalSettingQuery) :
    List NetCall × Except String (List SettingSourceResult) :=
  let (log, r) := get_historical_setting_values env facility.organization_id
    agent_id start «end» queries
  (log, match r with
    | .ok v => .ok v
    | .error e => .error ("Error retrieving historical values for facility "
        ++ facility.display_name ++ ": " ++ e))

/-- The `read` filter argument. -/
structure Filter where
  facilities : List String
  metrics : List DeviceMetric
deriving DecidableEq, Repr

/-- The per-facility accumulation state of `read`'s device loop. -/
structure FacilityBuildState where
  device_id_to_device : List (String × Device) := []
  filtered_constructs_by_id : List (String × ControlledDeviceConstruct) := []
  reading_queries : List HistoricalReadingQuery := []
  setting_queries : List HistoricalSettingQuery := []
  construct_id_to_device_id : List (String × String) := []
deriving DecidableEq, Repr

/-- Metric validation and bucketing at the top of `read`: every metric
must pass `is_valid_metric` (whose `KeyError` also propagates), then is
appended to its device kind's bucket. Buckets are keyed by the kind's
string value, matching `StrEnum` equality with the plain-string
`device.kind`. -/
def buildMetricsByDeviceKind (metrics : List DeviceMetric) :
    Except String (List (String × List DeviceMetric)) :=
  metrics.foldlM (fun acc metric => do
    let valid ← is_valid_metric metric
    if valid then
      Except.ok (match alGet acc metric.device_kind.value with
        | none => acc ++ [(metric.device_kind.value, [metric])]
        | some old => alSet acc metric.device_kind.value (old ++ [metric]))
    else Except.error ("Invalid metrics type " ++ metric.name ++ metric.alias_regex)) []

/-- One device of `read`'s device loop: record the device, skip it when no
spec targets its kind, match constructs, merge them into the accumulated
maps, convert the aggregation strings (`ValueError` on an unknown one),
and append one query per matched construct, setting-kind constructs to the
setting batch and all others to the reading batch. -/
def deviceStep (metrics_by_device_kind : List (String × List DeviceMetric))
    (aggregate_by : List String) (st : FacilityBuildState) (device : Device) :
    Except String FacilityBuildState := do
  let st := { st with
    device_id_to_device := alSet st.device_id_to_device device.id device }
  let metrics_filter := (alGet metrics_by_device_kind device.kind).getD []
  if metrics_filter.isEmpty then .ok st
  else do
    let new_filtered ← get_filtered_constructs_by_id device metrics_filter
    if new_filtered.isEmpty then .ok st
    else do
      let st := { st with
        filtered_constructs_by_id := alUpdate st.filtered_constructs_by_id new_filtered }
      let agg_enums ← aggregate_by.mapM AggregateBy.fromString
      let st := new_filtered.foldl (fun st2 kv =>
        let construct_id := kv.1
        let construct := kv.2
        let cd2 := alSet st2.construct_id_to_device_id construct_id device.id
        let st2 := { st2 with construct_id_to_device_id := cd2 }
        if construct.metric_type = MetricType.setting then
          { st2 with setting_queries := st2.setting_queries ++
            [⟨⟨none, none, some construct_id⟩, agg_enums⟩] }
        else
          { st2 with reading_queries := st2.reading_queries ++
            [⟨construct_id, agg_enums⟩] }) st
      .ok st

/-- `result[facility.short_name].append(...)` over a whole batch: the
defaultdict slot is only materialized when at least one value is appended. -/
def resultAppend (result : List (String × List MetricValues)) (k : String)
    (mvs : List MetricValues) : List (String × List MetricValues) :=
  if mvs.isEmpty then result
  else
    match alGet result k with
    | none => result ++ [(k, mvs)]
    | some old => alSet result k (old ++ mvs)

/-- One facility of `read`'s main loop: take the first agent (IndexError
on none), list the facility's devices (one `listDevices` trace entry), run
the device loop, execute the non-empty query batches, and group the
decoded results into the facility's slot of the shared result map. -/
def facilityStep (env : Env)
    (metrics_by_device_kind : List (String × List DeviceMetric))
    (start «end» : Option PyDateTime) (aggregate_by : List String)
    (result : List (String × List MetricValues)) (facility : Facility) :
    List NetCall × Except String (List (String × List MetricValues)) :=
  match facility.agents with
  | [] => ([], .error "IndexError: list index out of range")
  | agent :: _ =>
    let agent_id := agent.agent_id
    let devices := env.devicesFor facility.organization_id agent_id
    let log0 := [NetCall.listDevices facility.organization_id agent_id]
    match devices.foldlM (deviceStep metrics_by_device_kind aggregate_by)
      ({} : FacilityBuildState) with
    | .error e => (log0, .error e)
    | .ok st =>
      let (rlog, rres) :=
        if st.reading_queries.length > 0 then
          mr_get_historical_reading_values env facility agent_id start «end»
            st.reading_queries
        else ([], .ok [])
      match rres with
      | .error e => (log0 ++ rlog, .error e)
      | .ok reading_values =>
        let (slog, sres) :=
          if st.setting_queries.length > 0 then
            mr_get_historical_setting_values env facility agent_id start «end»
              st.setting_queries
          else ([], .ok [])
        match sres with
        | .error e => (log0 ++ rlog ++ slog, .error e)
        | .ok setting_values =>
          match processedMetricValues st.device_id_to_device
            st.filtered_constructs_by_id st.construct_id_to_device_id
            reading_values setting_values with
          | .error e => (log0 ++ rlog ++ slog, .error e)
          | .ok mvs =>
              (log0 ++ rlog ++ slog,
               .ok (resultAppend result facility.short_name mvs))

/-- The facility loop of `read`: sequential, first error aborts the whole
call, the network trace accumulates across facilities. -/
def foldFacilities (env : Env)
    (metrics_by_device_kind : List (String × List DeviceMetric))
    (start «end» : Option PyDateTime) (aggregate_by : List String) :
    List NetCall → List (String × List MetricValues) → List Facility →
    List NetCall × Except String (List (String × List MetricValues))
  | log, result, [] => (log, .ok result)
  | log, result, facility :: rest =>
      let (flog, r) := facilityStep env metrics_by_device_kind start «end»
        aggregate_by result facility
      match r with
      | .error e => (log ++ flog, .error e)
      | .ok result' => foldFacilities env metrics_by_device_kind start «end»
          aggregate_by (log ++ flog) result' rest

/-- `MetricsReader.read` (nested result shape; the optional flatten step
is outside every claim): validate and bucket the metric specs, resolve the
facilities, then run the per-facility pipeline. The returned trace lists
every network request in issue order. -/
def read (env : Env) (filter : Filter) (start «end» : Option PyDateTime)
    (aggregate_by : List String) :
    List NetCall × Except String (List (String × List MetricValues)) :=
  if filter.metrics.isEmpty then ([], .error "No metrics provided")
  else
    match buildMetricsByDeviceKind filter.metrics with
    | .error e => ([], .error e)
    | .ok metrics_by_device_kind =>
      let (flog, fres) := filter_facilities env filter.facilities
      match fres with
      | .error e => (flog, .error e)
      | .ok facilities =>
          foldFacilities env metrics_by_device_kind start «end» aggregate_by
            flog [] facilities

/-! ## Specification-side descriptions of the grouping fold

These definitions follow the specification's wording for what
`_process_historical_values` is supposed to produce — groups keyed by
`(device_id, construct_id, construct_kind, aggregation)` with samples
appended in arrival order — and are compared with the embedded source
functions by the theorems below. -/

/-- Specification-side concatMap, written out for easy induction. -/
def concatMapL {α β : Type} (f : α → List β) : List α → List β
  | [] => []
  | x :: xs => f x ++ concatMapL f xs

/-- Specification-side element-wise traversal in `Except`: decode each
element independently, stop at the first error. -/
def mapME {α β : Type} (f : α → Except String β) : List α → Except String (List β)
  | [] => .ok []
  | x :: xs =>
      match f x with
      | .error e => .error e
      | .ok y =>
          match mapME f xs with
          | .error e => .error e
          | .ok ys => .ok (y :: ys)

/-- The sample list stored under a key, empty when the group is absent. -/
def valsAt (grouped : List (GroupKey × MetricValues)) (k : GroupKey) :
    List MetricValue :=
  match alGet grouped k with
  | some grp => grp.values
  | none => []

/-- Resolve a reading record's source id through the matched-construct map
and the construct-to-device back-reference map. -/
def specResolveR (filtered_constructs_by_id : List (String × ControlledDeviceConstruct))
    (construct_id_to_device_id : List (String × String))
    (device_id_to_device : List (String × Device))
    (r : ReadingSourceResult) : Option (ControlledDeviceConstruct × Device) := do
  let source ← alGet filtered_constructs_by_id r.source_id
  let device_id ← alGet construct_id_to_device_id r.source_id
  let device ← alGet device_id_to_device device_id
  pure (source, device)

/-- Resolve a setting record's setting id the same way. -/
def specResolveS (filtered_constructs_by_id : List (String × ControlledDeviceConstruct))
    (construct_id_to_device_id : List (String × String))
    (device_id_to_device : List (String × Device))
    (s : SettingSourceResult) : Option (ControlledDeviceConstruct × Device) := do
  let source ← alGet filtered_constructs_by_id s.setting_id
  let device_id ← alGet construct_id_to_device_id s.setting_id
  let device ← alGet device_id_to_device device_id
  pure (source, device)

/-- The key a result element folds into:
`(device_id, construct_id, construct_kind, aggregation)` with the
aggregation defaulting to `"avg"` when the element has none. -/
def elemKey (device : Device) (source : ControlledDeviceConstruct)
    (aggregation : Option AggregateBy) : GroupKey :=
  (device.id, source.id, source.metric_type, aggKeyOf aggregation)

/-- The group keys touched by a reading record: one per result element,
with the aggregation component defaulting to `"avg"` when absent. -/
def specKeysOfR (fc : List (String × ControlledDeviceConstruct))
    (cd : List (String × String)) (dd : List (String × Device))
    (r : ReadingSourceResult) : List GroupKey :=
  match specResolveR fc cd dd r with
  | some (source, device) =>
      r.results.map (fun res => elemKey device source res.aggregation)
  | none => []

/-- The group keys touched by a setting record. -/
def specKeysOfS (fc : List (String × ControlledDeviceConstruct))
    (cd : List (String × String)) (dd : List (String × Device))
    (s : SettingSourceResult) : List GroupKey :=
  match specResolveS fc cd dd s with
  | some (source, device) =>
      s.results.map (fun res => elemKey device source res.aggregation)
  | none => []

/-- Per-element well-formedness of a reading result element for the
grouping fold: a present `numberValue` must carry a scaled field. -/
def readingResWf (res : ReadingResult) : Bool :=
  match res.numberValue with
  | some nv => nv.scaled.isSome
  | none => true

/-- The canonical sample value of a reading result element: the scaled
number when a `numberValue` is present, the not-a-number sentinel
otherwise. -/
def specValueOfReadingRes (res : ReadingResult) : PyFloat :=
  match res.numberValue with
  | some nv => nv.scaled.getD PyFloat.nan
  | none => PyFloat.nan

/-- A reading record's samples for group `k`, in arrival order: one per
result element whose key is `k`. -/
def specContribR (fc : List (String × ControlledDeviceConstruct))
    (cd : List (String × String)) (dd : List (String × Device))
    (k : GroupKey) (r : ReadingSourceResult) : List MetricValue :=
  match specResolveR fc cd dd r, parse_dt_str r.time with
  | some (source, device), .ok t =>
      (r.results.filter (fun res =>
        decide (elemKey device source res.aggregation = k))).map
        (fun res => ⟨t, specValueOfReadingRes res⟩)
  | _, _ => []

/-- A setting record's samples for group `k`: one per result element whose
key is `k` and whose `numberValue` is truthy; elements without one
contribute nothing. -/
def specContribS (fc : List (String × ControlledDeviceConstruct))
    (cd : List (String × String)) (dd : List (String × Device))
    (k : GroupKey) (s : SettingSourceResult) : List MetricValue :=
  match specResolveS fc cd dd s, parse_dt_str s.time with
  | some (source, device), .ok t =>
      (s.results.filter (fun res =>
        decide (elemKey device source res.aggregation = k) &&
          pyFloatTruthy res.numberValue)).map
        (fun res => ⟨t, res.numberValue.getD PyFloat.nan⟩)
  | _, _ => []

/-- Well-formedness of a reading record for the grouping fold: its ids
resolve through both maps, its timestamp parses, its device's kind is a
`DeviceKind` member, and every present `numberValue` carries a scaled
field. -/
def wfR (fc : List (String × ControlledDeviceConstruct))
    (cd : List (String × String)) (dd : List (String × Device))
    (r : ReadingSourceResult) : Bool :=
  match specResolveR fc cd dd r, parse_dt_str r.time with
  | some (_, device), .ok _ =>
      !(isErr (DeviceKind.fromString device.kind)) &&
      r.results.all readingResWf
  | _, _ => false

/-- Well-formedness of a setting record for the grouping fold. -/
def wfS (fc : List (String × ControlledDeviceConstruct))
    (cd : List (String × String)) (dd : List (String × Device))
    (s : SettingSourceResult) : Bool :=
  match specResolveS fc cd dd s, parse_dt_str s.time with
  | some (_, device), .ok _ => !(isErr (DeviceKind.fromString device.kind))
  | _, _ => false

/-! ## Concrete fixtures used by the witnesses and counterexamples -/

/-- The specification's round-trip NDJSON reading line. -/
def c8line : String :=
  "\x7b\"sourceId\":\"c1\",\"time\":\"2024-01-01T00:00:00Z\",\"results\":[\x7b\"aggregation\":\"avg\",\"numberValue\":\x7b\"raw\":10,\"scaled\":5.0\x7d\x7d]\x7d"

/-- Decoding `c8line` yields this record. -/
def c8record : ReadingSourceResult :=
  { time := "2024-01-01T00:00:00Z", source_id := "c1", forced := some false,
    results := [{ aggregation := some AggregateBy.avg,
                  numberValue := some { raw := some (PyFloat.val 10),
                                        scaled := some (PyFloat.val 5) } }] }

/-- A control point with id `c1`, matched for the round-trip scenario. -/
def cp1 : ControlPoint :=
  { id := "c1", «alias» := "SuctionPressure", bias := "b", type := "analog" }

/-- `cp1` as a construct. -/
def cdc1 : ControlledDeviceConstruct := ControlledDeviceConstruct.cp cp1

/-- The compressor device owning `cp1`. -/
def dev1 : Device :=
  { id := "d1", «alias» := "COMP-1", kind := "compressor", name := "Compressor 1",
    control_points := [cp1] }

/-- 2024-01-01T00:00:00 UTC. -/
def utc20240101 : PyDateTime := ⟨2024, 1, 1, 0, 0, 0, some 0⟩

/-- The group produced for the round-trip scenario: one sample, the scaled
value `5.0`, at 2024-01-01T00:00:00 UTC, under aggregation `"avg"`. -/
def c8group : MetricValues :=
  { metric := { name := "SuctionPressure", alias_regex := "",
                device_kind := DeviceKind.compressor,
                metric_type := MetricType.control_point },
    device_name := "Compressor 1", device_alias := "COMP-1", device_id := "d1",
    aggregation := "avg",
    values := [⟨utc20240101, PyFloat.val 5⟩] }

/-- An alias-regex metric spec with pattern `Cur.*`. -/
def specCur : DeviceMetric :=
  { alias_regex := "Cur.*", device_kind := DeviceKind.compressor,
    metric_type := MetricType.control_point }

/-- The compiled form of the pattern `Cur.*`. -/
def reCur : Re :=
  Re.cat (Re.chr 'C') (Re.cat (Re.chr 'u')
    (Re.cat (Re.chr 'r') (Re.cat (Re.star Re.dot) Re.eps)))

/-- Control point aliased `Current`. -/
def cpCur : ControlPoint := { id := "p1", «alias» := "Current", bias := "", type := "" }

/-- Control point aliased `MotorCurrent`. -/
def cpMot : ControlPoint := { id := "p2", «alias» := "MotorCurrent", bias := "", type := "" }

/-- Control point with the empty alias. -/
def cpEmp : ControlPoint := { id := "p3", «alias» := "", bias := "", type := "" }

/-- A device carrying `Current`, `MotorCurrent` and an empty-alias
control point. -/
def dev2 : Device :=
  { id := "d2", «alias» := "", kind := "compressor", name := "",
    control_points := [cpCur, cpMot, cpEmp] }

/-- A one-agent facility. -/
def fac1 : Facility :=
  { organization_id := "o", facility_id := "f", display_name := "Fac",
    short_name := "fac", address := "", timezone := "", agents := [⟨"a"⟩] }

/-- A transport environment with one facility whose device list is `dev2`. -/
def env1 : Env :=
  { facilities := [fac1], devicesFor := fun _ _ => [dev2],
    readingLines := [], settingLines := [] }

/-- A naive datetime (no timezone offset). -/
def naiveDT : PyDateTime := ⟨2024, 1, 1, 0, 0, 0, none⟩

/-- A numeric setting construct with id `s1`. -/
def setC : Setting := { id := "s1", name := "Setpoint", kind := "number" }

/-- `setC` as a construct. -/
def cdcS : ControlledDeviceConstruct := ControlledDeviceConstruct.set setC

/-- Matched-construct map holding `c1` and `s1`. -/
def fcMap1 : List (String × ControlledDeviceConstruct) := [("c1", cdc1), ("s1", cdcS)]

/-- Construct-to-device back-reference map. -/
def cdMap1 : List (String × String) := [("c1", "d1"), ("s1", "d1")]

/-- Device map holding `d1`. -/
def ddMap1 : List (String × Device) := [("d1", dev1)]

/-- A reading record whose one result element has no `numberValue`. -/
def rrNoNum : ReadingSourceResult :=
  { time := "2024-01-01T00:00:00Z", source_id := "c1", results := [{}] }

/-- A setting record whose one result element has no `numberValue`. -/
def srNoNum : SettingSourceResult :=
  { time := "2024-01-01T00:00:00Z", setting_id := "s1", results := [{}] }

/-- A reading record with two aggregations of the same source. -/
def rrC5 : ReadingSourceResult :=
  { time := "2024-01-01T00:00:00Z", source_id := "c1",
    results := [{ aggregation := some AggregateBy.avg,
                  numberValue := some { raw := some (PyFloat.val 3),
                                        scaled := some (PyFloat.val 7) } },
                { aggregation := some AggregateBy.max,
                  numberValue := some { raw := some (PyFloat.val 4),
                                        scaled := some (PyFloat.val 9) } }] }

/-- A numeric setting record for `s1`. -/
def srC5 : SettingSourceResult :=
  { time := "2024-01-01T00:01:00Z", setting_id := "s1",
    results := [{ aggregation := some AggregateBy.avg,
                  numberValue := some (PyFloat.val 2) }] }

/-- A reading record whose source id is in neither map. -/
def rrOrphan : ReadingSourceResult :=
  { time := "2024-01-01T00:00:00Z", source_id := "ghost", results := [] }

/-- Is a trace entry one of the two historical-value POSTs? -/
def isHistoricalCall : NetCall → Bool
  | NetCall.readingsQuery _ _ => true
  | NetCall.settingsQuery _ _ => true
  | _ => false

/-! ## Library-style lemmas on the dict and fold embeddings -/

/-- Bind on `ok` reduces. -/
@[simp]
theorem except_bind_ok {ε α β : Type} (a : α) (f : α → Except ε β) :
    (Except.ok a >>= f) = f a := rfl

/-- Bind on `error` short-circuits. -/
@[simp]
theorem except_bind_error {ε α β : Type} (e : ε) (f : α → Except ε β) :
    ((Except.error e : Except ε α) >>= f) = Except.error e := rfl

/-- Reading a key just written. -/
theorem alGet_alSet_self {K V : Type} [DecidableEq K]
    (d : List (K × V)) (k : K) (v : V) : alGet (alSet d k v) k = some v := by
  induction d with
  | nil => simp [alSet, alGet]
  | cons kv rest ih =>
      obtain ⟨k', w⟩ := kv
      by_cases h : k' = k
      · subst h
        simp [alSet, alGet]
      · simp [alSet, alGet, h, ih]

/-- Writing one key leaves every other key's binding unchanged. -/
theorem alGet_alSet_ne {K V : Type} [DecidableEq K]
    (d : List (K × V)) (k k' : K) (v : V) (h : k' ≠ k) :
    alGet (alSet d k v) k' = alGet d k' := by
  induction d with
  | nil => simp [alSet, alGet, Ne.symm h]
  | cons kv rest ih =>
      obtain ⟨k₀, w⟩ := kv
      by_cases h0 : k₀ = k
      · subst h0
        have : k₀ ≠ k' := fun hh => h (Eq.symm hh)
        simp [alSet, alGet, this]
      · by_cases h1 : k₀ = k'
        · subst h1
          simp [alSet, alGet, h0]
        · simp [alSet, alGet, h0, h1, ih]

/-- A fold in the `Except` monad errs whenever the list contains an
element on which the step errs for every accumulator. -/
theorem foldlM_isErr_of_mem {α β : Type} (f : β → α → Except String β) (x : α)
    (hx : ∀ b, isErr (f b x) = true) :
    ∀ (l : List α), x ∈ l → ∀ b, isErr (l.foldlM f b) = true := by
  intro l
  induction l with
  | nil => intro h; cases h
  | cons y ys ih =>
      intro hmem b
      simp only [List.foldlM_cons]
      cases hfy : f b y with
      | error e => simp [isErr, hfy]
      | ok b' =>
          simp only [hfy, except_bind_ok]
          rcases List.mem_cons.mp hmem with heq | htail
          · subst heq
            have := hx b
            rw [hfy] at this
            simp [isErr] at this
          · exact ih htail b'

/-- `concatMapL` on nil. -/
@[simp]
theorem concatMapL_nil {α β : Type} (f : α → List β) : concatMapL f [] = [] := rfl

/-- `concatMapL` on cons. -/
@[simp]
theorem concatMapL_cons {α β : Type} (f : α → List β) (x : α) (xs : List α) :
    concatMapL f (x :: xs) = f x ++ concatMapL f xs := rfl

/-! ## Characterization of the grouping fold -/

/-- One reading element's effect on the grouped dict: exactly one sample —
the scaled value, or the not-a-number sentinel when `numberValue` is
absent — is appended to its key's group, every other group unchanged;
the key becomes present. -/
theorem readingResStep_spec (device : Device) (source : ControlledDeviceConstruct)
    (t : PyDateTime) (grouped : List (GroupKey × MetricValues)) (res : ReadingResult)
    (hdk : isErr (DeviceKind.fromString device.kind) = false)
    (hres : readingResWf res = true) :
    ∃ g', readingResStep device source t grouped res = .ok g' ∧
      (∀ k, valsAt g' k = valsAt grouped k ++
        (if elemKey device source res.aggregation = k
         then [⟨t, specValueOfReadingRes res⟩] else [])) ∧
      (∀ k, (alGet g' k).isSome = true ↔
        ((alGet grouped k).isSome = true ∨ k = elemKey device source res.aggregation)) := by
  obtain ⟨dk, hfk⟩ : ∃ dk, DeviceKind.fromString device.kind = .ok dk := by
    cases hx : DeviceKind.fromString device.kind with
    | error e => rw [hx] at hdk; simp [isErr] at hdk
    | ok dk => exact ⟨dk, rfl⟩
  have hval : (match res.numberValue with
      | some nv =>
        match nv.scaled with
        | some v => Except.ok v
        | none =>
            (Except.error "ValidationError: value must be a float, got None" :
              Except String PyFloat)
      | none => Except.ok PyFloat.nan) = Except.ok (specValueOfReadingRes res) := by
    unfold readingResWf at hres
    cases hnv : res.numberValue with
    | none => simp [specValueOfReadingRes, hnv]
    | some nv =>
        rw [hnv] at hres
        have hres' : nv.scaled.isSome = true := by simpa using hres
        obtain ⟨v, hs⟩ := Option.isSome_iff_exists.mp hres'
        simp [specValueOfReadingRes, hnv, hs]
  cases hb : alGet grouped (elemKey device source res.aggregation) with
  | none =>
      refine ⟨alSet grouped (elemKey device source res.aggregation)
          { metric := ⟨source.alias, "", dk, source.metric_type⟩,
            device_name := device.name, device_alias := device.alias,
            device_id := device.id,
            aggregation := aggKeyOf res.aggregation,
            values := [⟨t, specValueOfReadingRes res⟩] }, ?_, ?_, ?_⟩
      · simp only [readingResStep, elemKey] at hb ⊢
        rw [hb]
        simp only [mkGroup, hfk, except_bind_ok, hval]
        rfl
      · intro k
        by_cases hk : elemKey device source res.aggregation = k
        · subst hk
          simp [valsAt, alGet_alSet_self, hb]
        · have hne : k ≠ elemKey device source res.aggregation := fun hh => hk hh.symm
          simp [valsAt, alGet_alSet_ne _ _ _ _ hne, hk]
      · intro k
        by_cases hk : k = elemKey device source res.aggregation
        · subst hk
          simp [alGet_alSet_self]
        · simp [alGet_alSet_ne _ _ _ _ hk, hk]
  | some g =>
      refine ⟨alSet grouped (elemKey device source res.aggregation)
          { g with values := g.values ++ [⟨t, specValueOfReadingRes res⟩] },
        ?_, ?_, ?_⟩
      · simp only [readingResStep, elemKey] at hb ⊢
        rw [hb]
        simp only [hval]
        rfl
      · intro k
        by_cases hk : elemKey device source res.aggregation = k
        · subst hk
          simp [valsAt, alGet_alSet_self, hb]
        · have hne : k ≠ elemKey device source res.aggregation := fun hh => hk hh.symm
          simp [valsAt, alGet_alSet_ne _ _ _ _ hne, hk]
      · intro k
        by_cases hk : k = elemKey device source res.aggregation
        · subst hk
          simp [alGet_alSet_self, hb]
        · simp [alGet_alSet_ne _ _ _ _ hk, hk]

/-- One setting element's effect on the grouped dict: its key's group is
created (empty) when absent, and one sample is appended only when the
element's `numberValue` is truthy; every other group unchanged. -/
theorem settingResStep_spec (device : Device) (source : ControlledDeviceConstruct)
    (t : PyDateTime) (grouped : List (GroupKey × MetricValues)) (res : SettingResult)
    (hdk : isErr (DeviceKind.fromString device.kind) = false) :
    ∃ g', settingResStep device source t grouped res = .ok g' ∧
      (∀ k, valsAt g' k = valsAt grouped k ++
        (if elemKey device source res.aggregation = k ∧
            pyFloatTruthy res.numberValue = true
         then [⟨t, res.numberValue.getD PyFloat.nan⟩] else [])) ∧
      (∀ k, (alGet g' k).isSome = true ↔
        ((alGet grouped k).isSome = true ∨ k = elemKey device source res.aggregation)) := by
  obtain ⟨dk, hfk⟩ : ∃ dk, DeviceKind.fromString device.kind = .ok dk := by
    cases hx : DeviceKind.fromString device.kind with
    | error e => rw [hx] at hdk; simp [isErr] at hdk
    | ok dk => exact ⟨dk, rfl⟩
  have hbase : ∃ base, (match alGet grouped (elemKey device source res.aggregation) with
      | none => mkGroup source device (aggKeyOf res.aggregation)
      | some g => Except.ok g) = Except.ok base ∧
      base.values = valsAt grouped (elemKey device source res.aggregation) := by
    cases hb : alGet grouped (elemKey device source res.aggregation) with
    | none =>
        refine ⟨⟨⟨source.alias, "", dk, source.metric_type⟩, device.name,
          device.alias, device.id, aggKeyOf res.aggregation, []⟩, ?_, ?_⟩
        · simp [mkGroup, hfk]
        · simp [valsAt, hb]
    | some g => exact ⟨g, rfl, by simp [valsAt, hb]⟩
  obtain ⟨base, hbeq, hbvals⟩ := hbase
  have hstep : settingResStep device source t grouped res = Except.ok
      (alSet grouped (elemKey device source res.aggregation)
        { base with values := base.values ++
            (if pyFloatTruthy res.numberValue = true
             then [⟨t, res.numberValue.getD PyFloat.nan⟩] else []) }) := by
    simp only [settingResStep, elemKey] at hbeq ⊢
    rw [hbeq]
    simp only [except_bind_ok]
    cases hnv : res.numberValue with
    | none => simp [pyFloatTruthy]
    | some v =>
        by_cases ht : pyFloatTruthy (some v) = true
        · simp [hnv, ht]
        · rw [if_neg (by simpa using ht)]
          simp only [Bool.not_eq_true] at ht
          simp [hnv, ht]
  refine ⟨_, hstep, ?_, ?_⟩
  · intro k
    by_cases hk : elemKey device source res.aggregation = k
    · subst hk
      by_cases ht : pyFloatTruthy res.numberValue = true
      · simp [valsAt, alGet_alSet_self, hbvals, ht]
      · simp [valsAt, alGet_alSet_self, hbvals, ht]
    · have hne : k ≠ elemKey device source res.aggregation := fun hh => hk hh.symm
      simp [valsAt, alGet_alSet_ne _ _ _ _ hne, hk]
  · intro k
    by_cases hk : k = elemKey device source res.aggregation
    · subst hk
      simp [alGet_alSet_self]
    · simp [alGet_alSet_ne _ _ _ _ hk, hk]

/-- Membership in the keys of `alSet`. -/
theorem mem_keys_alSet {K V : Type} [DecidableEq K] (d : List (K × V)) (k k' : K) (v : V) :
    k' ∈ (alSet d k v).map Prod.fst ↔ (k' ∈ d.map Prod.fst ∨ k' = k) := by
  induction d with
  | nil => simp [alSet]
  | cons kv rest ih =>
      obtain ⟨k0, w⟩ := kv
      by_cases hk : k0 = k
      · subst hk
        simp [alSet]
        tauto
      · simp [alSet, hk, ih]
        tauto

/-- `alSet` preserves distinctness of keys. -/
theorem alSet_keys_nodup {K V : Type} [DecidableEq K] (d : List (K × V)) (k : K) (v : V)
    (h : (d.map Prod.fst).Nodup) : ((alSet d k v).map Prod.fst).Nodup := by
  induction d with
  | nil => simp [alSet]
  | cons kv rest ih =>
      obtain ⟨k0, w⟩ := kv
      by_cases hk : k0 = k
      · subst hk
        simpa [alSet] using h
      · simp only [List.map_cons, List.nodup_cons] at h
        obtain ⟨hnot, hrest⟩ := h
        simp only [alSet, if_neg hk, List.map_cons, List.nodup_cons]
        refine ⟨?_, ih hrest⟩
        rw [mem_keys_alSet]
        rintro (hmem | heq)
        · exact hnot hmem
        · exact hk heq

/-- With distinct keys, membership of a pair determines the lookup. -/
theorem alGet_of_mem_nodup {K V : Type} [DecidableEq K] (d : List (K × V)) (k : K) (v : V)
    (hnd : (d.map Prod.fst).Nodup) (hmem : (k, v) ∈ d) : alGet d k = some v := by
  induction d with
  | nil => cases hmem
  | cons kv rest ih =>
      obtain ⟨k0, w⟩ := kv
      simp only [List.map_cons, List.nodup_cons] at hnd
      rcases List.mem_cons.mp hmem with heq | htail
      · cases heq
        simp [alGet]
      · have hk : k0 ≠ k := by
          intro hh
          subst hh
          exact hnd.1 (List.mem_map.mpr ⟨(k0, v), htail, rfl⟩)
        simp [alGet, hk, ih hnd.2 htail]

/-- Generic preservation of an invariant along an `Except` fold. -/
theorem foldlM_preserves {α β : Type} (P : β → Prop) (f : β → α → Except String β)
    (hf : ∀ b a b', f b a = .ok b' → P b → P b') :
    ∀ (l : List α) (b b'), l.foldlM f b = .ok b' → P b → P b' := by
  intro l
  induction l with
  | nil =>
      intro b b' h hp
      have hh : (Except.ok b : Except String β) = .ok b' := h
      cases hh
      exact hp
  | cons x xs ih =>
      intro b b' h hp
      rw [List.foldlM_cons] at h
      cases hx : f b x with
      | error e => rw [hx] at h; simp at h
      | ok b1 =>
          rw [hx, except_bind_ok] at h
          exact ih b1 b' h (hf b x b1 hx hp)

/-- A reading element step only ever writes one key of the dict. -/
theorem readingResStep_shape (device : Device) (source : ControlledDeviceConstruct)
    (t : PyDateTime) (grouped : List (GroupKey × MetricValues)) (res : ReadingResult)
    (g' : List (GroupKey × MetricValues))
    (h : readingResStep device source t grouped res = .ok g') :
    ∃ k v, g' = alSet grouped k v := by
  simp only [readingResStep, mkGroup, DeviceKind.fromString] at h
  repeat' first
    | split at h
    | simp only [except_bind_ok] at h
  all_goals first
    | exact ⟨_, _, (Except.ok.inj h).symm⟩
    | exact ⟨_, _, h.symm⟩
    | exact absurd h (by simp)

/-- A setting element step only ever writes one key of the dict. -/
theorem settingResStep_shape (device : Device) (source : ControlledDeviceConstruct)
    (t : PyDateTime) (grouped : List (GroupKey × MetricValues)) (res : SettingResult)
    (g' : List (GroupKey × MetricValues))
    (h : settingResStep device source t grouped res = .ok g') :
    ∃ k v, g' = alSet grouped k v := by
  simp only [settingResStep, mkGroup, DeviceKind.fromString] at h
  repeat' first
    | split at h
    | simp only [except_bind_ok] at h
  all_goals first
    | exact ⟨_, _, (Except.ok.inj h).symm⟩
    | exact ⟨_, _, h.symm⟩
    | exact absurd h (by simp)

/-- Folding one reading record's elements: every element appends its one
sample to its key's group, in element order. -/
theorem foldReadingRes_spec (device : Device) (source : ControlledDeviceConstruct)
    (t : PyDateTime)
    (hdk : isErr (DeviceKind.fromString device.kind) = false) :
    ∀ (results : List ReadingResult) (grouped : List (GroupKey × MetricValues)),
      (∀ res ∈ results, readingResWf res = true) →
      ∃ g', results.foldlM (readingResStep device source t) grouped = .ok g' ∧
        (∀ k, valsAt g' k = valsAt grouped k ++
          concatMapL (fun res =>
            if elemKey device source res.aggregation = k
            then [⟨t, specValueOfReadingRes res⟩] else []) results) ∧
        (∀ k, (alGet g' k).isSome = true ↔
          ((alGet grouped k).isSome = true ∨
           k ∈ results.map (fun res => elemKey device source res.aggregation))) := by
  intro results
  induction results with
  | nil =>
      intro grouped _
      exact ⟨grouped, rfl, by simp [concatMapL], by simp⟩
  | cons res rest ih =>
      intro grouped hwf
      obtain ⟨g1, hstep, hv1, hp1⟩ :=
        readingResStep_spec device source t grouped res hdk (hwf res (by simp))
      obtain ⟨g', hfold, hv2, hp2⟩ := ih g1 (fun r hr => hwf r (by simp [hr]))
      refine ⟨g', ?_, ?_, ?_⟩
      · rw [List.foldlM_cons, hstep, except_bind_ok]
        exact hfold
      · intro k
        rw [hv2 k, hv1 k, concatMapL_cons, List.append_assoc]
      · intro k
        rw [hp2 k, hp1 k, List.map_cons, List.mem_cons]
        tauto

/-- Folding one setting record's elements. -/
theorem foldSettingRes_spec (device : Device) (source : ControlledDeviceConstruct)
    (t : PyDateTime)
    (hdk : isErr (DeviceKind.fromString device.kind) = false) :
    ∀ (results : List SettingResult) (grouped : List (GroupKey × MetricValues)),
      ∃ g', results.foldlM (settingResStep device source t) grouped = .ok g' ∧
        (∀ k, valsAt g' k = valsAt grouped k ++
          concatMapL (fun res =>
            if elemKey device source res.aggregation = k ∧
                pyFloatTruthy res.numberValue = true
            then [⟨t, res.numberValue.getD PyFloat.nan⟩] else []) results) ∧
        (∀ k, (alGet g' k).isSome = true ↔
          ((alGet grouped k).isSome = true ∨
           k ∈ results.map (fun res => elemKey device source res.aggregation))) := by
  intro results
  induction results with
  | nil =>
      intro grouped
      exact ⟨grouped, rfl, by simp [concatMapL], by simp⟩
  | cons res rest ih =>
      intro grouped
      obtain ⟨g1, hstep, hv1, hp1⟩ := settingResStep_spec device source t grouped res hdk
      obtain ⟨g', hfold, hv2, hp2⟩ := ih g1
      refine ⟨g', ?_, ?_, ?_⟩
      · rw [List.foldlM_cons, hstep, except_bind_ok]
        exact hfold
      · intro k
        rw [hv2 k, hv1 k, concatMapL_cons, List.append_assoc]
      · intro k
        rw [hp2 k, hp1 k, List.map_cons, List.mem_cons]
        tauto

/-- Bridge between the if-shaped concatMap and filter-then-map. -/
theorem concatMapL_if_eq_filter_map {α β : Type} (p : α → Prop) [DecidablePred p]
    (f : α → β) (l : List α) :
    concatMapL (fun x => if p x then [f x] else []) l =
      (l.filter (fun x => decide (p x))).map f := by
  induction l with
  | nil => rfl
  | cons x xs ih =>
      by_cases hx : p x <;> simp [hx, ih]

/-- One reading record: the two map lookups and the timestamp parse
succeed under `wfR`, and the element fold appends exactly the record's
per-key contributions. -/
theorem processReadingRecord_spec
    (dd : List (String × Device)) (fc : List (String × ControlledDeviceConstruct))
    (cd : List (String × String)) (r : ReadingSourceResult)
    (hwf : wfR fc cd dd r = true) (grouped : List (GroupKey × MetricValues)) :
    ∃ g', processReadingRecord dd fc cd grouped r = .ok g' ∧
      (∀ k, valsAt g' k = valsAt grouped k ++ specContribR fc cd dd k r) ∧
      (∀ k, (alGet g' k).isSome = true ↔
        ((alGet grouped k).isSome = true ∨ k ∈ specKeysOfR fc cd dd r)) := by
  unfold wfR at hwf
  cases h1 : alGet fc r.source_id with
  | none => rw [show specResolveR fc cd dd r = none by simp [specResolveR, h1]] at hwf; simp at hwf
  | some source =>
  cases h2 : alGet cd r.source_id with
  | none => rw [show specResolveR fc cd dd r = none by simp [specResolveR, h1, h2]] at hwf; simp at hwf
  | some did =>
  cases h3 : alGet dd did with
  | none => rw [show specResolveR fc cd dd r = none by simp [specResolveR, h1, h2, h3]] at hwf; simp at hwf
  | some device =>
  have hres : specResolveR fc cd dd r = some (source, device) := by
    simp [specResolveR, h1, h2, h3]
  rw [hres] at hwf
  cases hts : parse_dt_str r.time with
  | error e => rw [hts] at hwf; simp at hwf
  | ok t =>
  rw [hts] at hwf
  simp only [Bool.and_eq_true, Bool.not_eq_true', List.all_eq_true] at hwf
  obtain ⟨hdk, hall⟩ := hwf
  have hall' : ∀ res ∈ r.results, readingResWf res = true := fun res hr => by
    simpa using hall res hr
  obtain ⟨g', hfold, hv, hp⟩ :=
    foldReadingRes_spec device source t hdk r.results grouped hall'
  refine ⟨g', ?_, ?_, ?_⟩
  · simp only [processReadingRecord, h1, h2, h3, hts, except_bind_ok]
    exact hfold
  · intro k
    rw [hv k]
    congr 1
    rw [specContribR, hres, hts,
      concatMapL_if_eq_filter_map (fun res => elemKey device source res.aggregation = k)
        (fun res => (⟨t, specValueOfReadingRes res⟩ : MetricValue)) r.results]
  · intro k
    rw [hp k, specKeysOfR, hres]

/-- One setting record, symmetric to the reading case. -/
theorem processSettingRecord_spec
    (dd : List (String × Device)) (fc : List (String × ControlledDeviceConstruct))
    (cd : List (String × String)) (s : SettingSourceResult)
    (hwf : wfS fc cd dd s = true) (grouped : List (GroupKey × MetricValues)) :
    ∃ g', processSettingRecord dd fc cd grouped s = .ok g' ∧
      (∀ k, valsAt g' k = valsAt grouped k ++ specContribS fc cd dd k s) ∧
      (∀ k, (alGet g' k).isSome = true ↔
        ((alGet grouped k).isSome = true ∨ k ∈ specKeysOfS fc cd dd s)) := by
  unfold wfS at hwf
  cases h1 : alGet fc s.setting_id with
  | none => rw [show specResolveS fc cd dd s = none by simp [specResolveS, h1]] at hwf; simp at hwf
  | some source =>
  cases h2 : alGet cd s.setting_id with
  | none => rw [show specResolveS fc cd dd s = none by simp [specResolveS, h1, h2]] at hwf; simp at hwf
  | some did =>
  cases h3 : alGet dd did with
  | none => rw [show specResolveS fc cd dd s = none by simp [specResolveS, h1, h2, h3]] at hwf; simp at hwf
  | some device =>
  have hres : specResolveS fc cd dd s = some (source, device) := by
    simp [specResolveS, h1, h2, h3]
  rw [hres] at hwf
  cases hts : parse_dt_str s.time with
  | error e => rw [hts] at hwf; simp at hwf
  | ok t =>
  rw [hts] at hwf
  simp only [Bool.not_eq_true'] at hwf
  obtain ⟨g', hfold, hv, hp⟩ :=
    foldSettingRes_spec device source t hwf s.results grouped
  refine ⟨g', ?_, ?_, ?_⟩
  · simp only [processSettingRecord, h1, h2, h3, hts, except_bind_ok]
    exact hfold
  · intro k
    rw [hv k]
    congr 1
    rw [specContribS, hres, hts,
      concatMapL_if_eq_filter_map
        (fun res => elemKey device source res.aggregation = k ∧
          pyFloatTruthy res.numberValue = true)
        (fun res => (⟨t, res.numberValue.getD PyFloat.nan⟩ : MetricValue)) s.results]
    have hpred : (fun (x : SettingResult) => decide (elemKey device source x.aggregation = k ∧
          pyFloatTruthy x.numberValue = true)) =
        (fun (res : SettingResult) => decide (elemKey device source res.aggregation = k) &&
          pyFloatTruthy res.numberValue) := by
      funext res
      by_cases hA : elemKey device source res.aggregation = k <;>
        by_cases hB : pyFloatTruthy res.numberValue = true <;> simp [hA, hB]
    rw [hpred]
  · intro k
    rw [hp k, specKeysOfS, hres]

/-- Folding the reading records accumulates their contributions in arrival
order. -/
theorem foldReadingRecords_spec
    (dd : List (String × Device)) (fc : List (String × ControlledDeviceConstruct))
    (cd : List (String × String)) :
    ∀ (rrs : List ReadingSourceResult) (grouped : List (GroupKey × MetricValues)),
      (∀ r ∈ rrs, wfR fc cd dd r = true) →
      ∃ g', rrs.foldlM (processReadingRecord dd fc cd) grouped = .ok g' ∧
        (∀ k, valsAt g' k = valsAt grouped k ++
          concatMapL (fun r => specContribR fc cd dd k r) rrs) ∧
        (∀ k, (alGet g' k).isSome = true ↔
          ((alGet grouped k).isSome = true ∨
           k ∈ concatMapL (specKeysOfR fc cd dd) rrs)) := by
  intro rrs
  induction rrs with
  | nil =>
      intro grouped _
      exact ⟨grouped, rfl, by simp [concatMapL], by simp⟩
  | cons r rest ih =>
      intro grouped hwf
      obtain ⟨g1, hstep, hv1, hp1⟩ :=
        processReadingRecord_spec dd fc cd r (hwf r (by simp)) grouped
      obtain ⟨g', hfold, hv2, hp2⟩ := ih g1 (fun x hx => hwf x (by simp [hx]))
      refine ⟨g', ?_, ?_, ?_⟩
      · rw [List.foldlM_cons, hstep, except_bind_ok]
        exact hfold
      · intro k
        rw [hv2 k, hv1 k, concatMapL_cons, List.append_assoc]
      · intro k
        rw [hp2 k, hp1 k, concatMapL_cons, List.mem_append]
        tauto

/-- Folding the setting records accumulates their contributions in arrival
order. -/
theorem foldSettingRecords_spec
    (dd : List (String × Device)) (fc : List (String × ControlledDeviceConstruct))
    (cd : List (String × String)) :
    ∀ (srs : List SettingSourceResult) (grouped : List (GroupKey × MetricValues)),
      (∀ s ∈ srs, wfS fc cd dd s = true) →
      ∃ g', srs.foldlM (processSettingRecord dd fc cd) grouped = .ok g' ∧
        (∀ k, valsAt g' k = valsAt grouped k ++
          concatMapL (fun s => specContribS fc cd dd k s) srs) ∧
        (∀ k, (alGet g' k).isSome = true ↔
          ((alGet grouped k).isSome = true ∨
           k ∈ concatMapL (specKeysOfS fc cd dd) srs)) := by
  intro srs
  induction srs with
  | nil =>
      intro grouped _
      exact ⟨grouped, rfl, by simp [concatMapL], by simp⟩
  | cons s rest ih =>
      intro grouped hwf
      obtain ⟨g1, hstep, hv1, hp1⟩ :=
        processSettingRecord_spec dd fc cd s (hwf s (by simp)) grouped
      obtain ⟨g', hfold, hv2, hp2⟩ := ih g1 (fun x hx => hwf x (by simp [hx]))
      refine ⟨g', ?_, ?_, ?_⟩
      · rw [List.foldlM_cons, hstep, except_bind_ok]
        exact hfold
      · intro k
        rw [hv2 k, hv1 k, concatMapL_cons, List.append_assoc]
      · intro k
        rw [hp2 k, hp1 k, concatMapL_cons, List.mem_append]
        tauto

/-! ## C1 — NDJSON line handling of the historical-value decoders -/

/-- C1 (amended): each historical-value decoder processes its stream as
per-line decoding of exactly the non-empty lines — empty lines are skipped
silently, every non-empty line is decoded independently, and the first
failing line's error aborts the whole decode (it is not skipped). -/
theorem C1_amended (lines : List String) :
    decodeReadingLines lines =
      mapME decodeReadingLine (lines.filter (fun l => l ≠ "")) ∧
    decodeSettingLines lines =
      mapME decodeSettingLine (lines.filter (fun l => l ≠ "")) := by
  constructor
  · induction lines with
    | nil => rfl
    | cons l rest ih =>
        by_cases h : l = ""
        · subst h
          simpa [decodeReadingLines] using ih
        · rw [decodeReadingLines, List.filter_cons, if_neg h,
            if_pos (show (fun l => decide (l ≠ "")) l = true by simp [h]),
            mapME, ← ih]
          cases decodeReadingLine l with
          | error e => rfl
          | ok r =>
              cases decodeReadingLines rest with
              | error e => rfl
              | ok rs => rfl
  · induction lines with
    | nil => rfl
    | cons l rest ih =>
        by_cases h : l = ""
        · subst h
          simpa [decodeSettingLines] using ih
        · rw [decodeSettingLines, List.filter_cons, if_neg h,
            if_pos (show (fun l => decide (l ≠ "")) l = true by simp [h]),
            mapME, ← ih]
          cases decodeSettingLine l with
          | error e => rfl
          | ok r =>
              cases decodeSettingLines rest with
              | error e => rfl
              | ok rs => rfl

/-- C1 (counterexample): a malformed line is not skipped — a stream with a
well-formed line followed by a malformed one decodes to an error (the
well-formed record is not returned), on both decoders. -/
theorem C1_counterexample :
    isErr (decodeReadingLines [c8line, "<"]) = true ∧
    isErr (decodeSettingLines ["<"]) = true := by
  constructor
  · rfl
  · rfl

/-! ## C7 — `is_valid_metric` -/

/-- C7 (amended): for every metric spec whose device kind is present in
`device_metric_mapping` (all kinds except `energy_meter`),
`is_valid_metric` returns `false` exactly when a name-based spec's name is
outside the kind's vocabulary or a nameless spec has an empty pattern, and
it never raises. (For `energy_meter` name-based specs it raises `KeyError`
instead — see the counterexample.) -/
theorem C7_amended (m : DeviceMetric) (vocab : List String)
    (h : device_metric_mapping m.device_kind = some vocab) :
    (is_valid_metric m = .ok false ↔
      ((m.name ≠ "" ∧ m.name ∉ vocab) ∨ (m.name = "" ∧ m.alias_regex = ""))) ∧
    ∃ b, is_valid_metric m = .ok b := by
  unfold is_valid_metric
  by_cases hn : m.name = ""
  · simp only [hn]
    constructor
    · simp
    · exact ⟨_, rfl⟩
  · simp [hn, h]

/-- C7 (witness): the amended statement evaluated on a vessel-kind spec
with a name outside the vocabulary. -/
theorem C7_witness :
    (is_valid_metric
        { name := "Foo", device_kind := DeviceKind.vessel,
          metric_type := MetricType.control_point } = .ok false ↔
      (("Foo" ≠ "" ∧ "Foo" ∉ ["Pressure"]) ∨ ("Foo" = "" ∧ "" = ""))) ∧
    ∃ b, is_valid_metric
        { name := "Foo", device_kind := DeviceKind.vessel,
          metric_type := MetricType.control_point } = .ok b :=
  C7_amended
    { name := "Foo", device_kind := DeviceKind.vessel,
      metric_type := MetricType.control_point } ["Pressure"] rfl

/-- C7 (counterexample): a name-based spec with device kind
`energy_meter` makes `is_valid_metric` raise (`KeyError` on the mapping)
rather than return a boolean. -/
theorem C7_counterexample :
    isErr (is_valid_metric
      { name := "X", device_kind := DeviceKind.energy_meter,
        metric_type := MetricType.metric }) = true := rfl

/-! ## C8 — round trip of the specification's reading record -/

/-- C8: the spec's reading line decodes to `c8record`, and grouping that
record (with `c1` matched and owned by `d1`) yields exactly one group,
keyed with aggregation `"avg"`, holding one sample with the scaled value
`5.0` (not the raw `10`) at 2024-01-01T00:00:00 UTC. -/
theorem C8_round_trip :
    decodeReadingLines [c8line] = .ok [c8record] ∧
    process_historical_values [("d1", dev1)] [("c1", cdc1)] [("c1", "d1")]
        [c8record] [] =
      .ok [(("d1", "c1", MetricType.control_point, "avg"), c8group)] := by
  constructor
  · decide
  · decide

/-! ## C5 — the grouping fold -/

/-- C5: under resolvable, well-formed inputs the grouping fold succeeds,
and the resulting dict is characterized exactly: a group exists for a key
iff some record element touches that key —
`(device_id, construct_id, construct_kind, aggregation)` with `"avg"` when
the element carries no aggregation — and each group's sample list is the
concatenation, in arrival order (readings before settings, stream order
within each), of the per-record contributions to that key; samples are
appended, never merged, and records differing only in aggregation land
under different keys. -/
theorem C5_grouping (fc : List (String × ControlledDeviceConstruct))
    (cd : List (String × String)) (dd : List (String × Device))
    (rrs : List ReadingSourceResult) (srs : List SettingSourceResult)
    (hr : ∀ r ∈ rrs, wfR fc cd dd r = true)
    (hs : ∀ s ∈ srs, wfS fc cd dd s = true) :
    ∃ g, process_historical_values dd fc cd rrs srs = .ok g ∧
      (∀ k, valsAt g k =
        concatMapL (fun r => specContribR fc cd dd k r) rrs ++
        concatMapL (fun s => specContribS fc cd dd k s) srs) ∧
      (∀ k, (alGet g k).isSome = true ↔
        k ∈ concatMapL (specKeysOfR fc cd dd) rrs ++
          concatMapL (specKeysOfS fc cd dd) srs) := by
  obtain ⟨g1, hf1, hv1, hp1⟩ := foldReadingRecords_spec dd fc cd rrs [] hr
  obtain ⟨g, hf2, hv2, hp2⟩ := foldSettingRecords_spec dd fc cd srs g1 hs
  refine ⟨g, ?_, ?_, ?_⟩
  · simp only [process_historical_values, hf1, except_bind_ok]
    exact hf2
  · intro k
    rw [hv2 k, hv1 k]
    simp [valsAt, alGet]
  · intro k
    rw [List.mem_append, hp2 k, hp1 k]
    simp [alGet]

/-- C5 (witness): the characterization evaluated on one facility's maps
with one two-aggregation reading record and one setting record. -/
theorem C5_witness :
    ∃ g, process_historical_values ddMap1 fcMap1 cdMap1 [rrC5] [srC5] = .ok g ∧
      (∀ k, valsAt g k =
        concatMapL (fun r => specContribR fcMap1 cdMap1 ddMap1 k r) [rrC5] ++
        concatMapL (fun s => specContribS fcMap1 cdMap1 ddMap1 k s) [srC5]) ∧
      (∀ k, (alGet g k).isSome = true ↔
        k ∈ concatMapL (specKeysOfR fcMap1 cdMap1 ddMap1) [rrC5] ++
          concatMapL (specKeysOfS fcMap1 cdMap1 ddMap1) [srC5]) :=
  C5_grouping fcMap1 cdMap1 ddMap1 [rrC5] [srC5] (by decide) (by decide)

/-! ## C6 — unknown source ids surface an error -/

/-- C6: a streamed record whose source id is missing from the
matched-construct map or the construct-to-device map makes the whole
grouping step raise (`KeyError`): no value is returned for the facility,
the record is never silently dropped. -/
theorem C6_unknown_source_errors (dd : List (String × Device))
    (fc : List (String × ControlledDeviceConstruct)) (cd : List (String × String))
    (rrs : List ReadingSourceResult) (srs : List SettingSourceResult)
    (h : (∃ r ∈ rrs, alGet fc r.source_id = none ∨ alGet cd r.source_id = none) ∨
         (∃ s ∈ srs, alGet fc s.setting_id = none ∨ alGet cd s.setting_id = none)) :
    isErr (process_historical_values dd fc cd rrs srs) = true := by
  have hRstep : ∀ (r : ReadingSourceResult),
      (alGet fc r.source_id = none ∨ alGet cd r.source_id = none) →
      ∀ g, isErr (processReadingRecord dd fc cd g r) = true := by
    intro r hbad g
    rcases hbad with hb | hb
    · simp [processReadingRecord, hb, isErr]
    · cases h1 : alGet fc r.source_id with
      | none => simp [processReadingRecord, h1, isErr]
      | some src => simp [processReadingRecord, h1, hb, isErr]
  have hSstep : ∀ (s : SettingSourceResult),
      (alGet fc s.setting_id = none ∨ alGet cd s.setting_id = none) →
      ∀ g, isErr (processSettingRecord dd fc cd g s) = true := by
    intro s hbad g
    rcases hbad with hb | hb
    · simp [processSettingRecord, hb, isErr]
    · cases h1 : alGet fc s.setting_id with
      | none => simp [processSettingRecord, h1, isErr]
      | some src => simp [processSettingRecord, h1, hb, isErr]
  rcases h with ⟨r, hr, hbad⟩ | ⟨s, hs, hbad⟩
  · have herr := foldlM_isErr_of_mem (processReadingRecord dd fc cd) r
      (hRstep r hbad) rrs hr ([] : List (GroupKey × MetricValues))
    cases hf : rrs.foldlM (processReadingRecord dd fc cd)
        ([] : List (GroupKey × MetricValues)) with
    | error e => simp [process_historical_values, hf, isErr]
    | ok g =>
        rw [hf] at herr
        simp [isErr] at herr
  · cases hf : rrs.foldlM (processReadingRecord dd fc cd)
        ([] : List (GroupKey × MetricValues)) with
    | error e => simp [process_historical_values, hf, isErr]
    | ok g =>
        have herr := foldlM_isErr_of_mem (processSettingRecord dd fc cd) s
          (hSstep s hbad) srs hs g
        cases hf2 : srs.foldlM (processSettingRecord dd fc cd) g with
        | error e => simp [process_historical_values, hf, hf2, isErr]
        | ok g2 =>
            rw [hf2] at herr
            simp [isErr] at herr

/-- C6 (witness): a reading record with an unknown source id makes the
grouping step error out. -/
theorem C6_witness :
    isErr (process_historical_values ddMap1 fcMap1 cdMap1 [rrOrphan] []) = true :=
  C6_unknown_source_errors ddMap1 fcMap1 cdMap1 [rrOrphan] []
    (Or.inl ⟨rrOrphan, by decide, Or.inl (by decide)⟩)

/-! ## C3 — the reading/setting missing-numberValue asymmetry -/

/-- C3: in one grouping run holding a reading record and a setting record
whose single result elements both lack a `numberValue`, the reading
element contributes exactly one sample whose value is the not-a-number
sentinel, while the setting element contributes no sample — its group
exists with an empty sample list; both hold simultaneously. -/
theorem C3_missing_numberValue_asymmetry
    (fc : List (String × ControlledDeviceConstruct)) (cd : List (String × String))
    (dd : List (String × Device)) (r : ReadingSourceResult) (s : SettingSourceResult)
    (resR : ReadingResult) (resS : SettingResult)
    (sourceR deviceR : _) (sourceS deviceS : _) (tR : PyDateTime)
    (hrr : r.results = [resR]) (hsr : s.results = [resS])
    (hrnv : resR.numberValue = none) (hsnv : resS.numberValue = none)
    (hwr : wfR fc cd dd r = true) (hws : wfS fc cd dd s = true)
    (hRres : specResolveR fc cd dd r = some (sourceR, deviceR))
    (hSres : specResolveS fc cd dd s = some (sourceS, deviceS))
    (htR : parse_dt_str r.time = .ok tR)
    (hkdiff : elemKey deviceR sourceR resR.aggregation ≠
      elemKey deviceS sourceS resS.aggregation) :
    ∃ g, process_historical_values dd fc cd [r] [s] = .ok g ∧
      valsAt g (elemKey deviceR sourceR resR.aggregation) =
        [⟨tR, PyFloat.nan⟩] ∧
      ∃ grp, alGet g (elemKey deviceS sourceS resS.aggregation) = some grp ∧
        grp.values = [] := by
  obtain ⟨g1, hf1, hv1, hp1⟩ := foldReadingRecords_spec dd fc cd [r] []
    (by intro x hx; rw [List.mem_singleton] at hx; subst hx; exact hwr)
  obtain ⟨g, hf2, hv2, hp2⟩ := foldSettingRecords_spec dd fc cd [s] g1
    (by intro x hx; rw [List.mem_singleton] at hx; subst hx; exact hws)
  have hcontribS_empty : ∀ k, specContribS fc cd dd k s = [] := by
    intro k
    rw [specContribS, hSres]
    cases parse_dt_str s.time with
    | error e => rfl
    | ok t =>
        rw [hsr]
        simp [hsnv, pyFloatTruthy]
  have hcontribR : ∀ k, specContribR fc cd dd k r =
      if elemKey deviceR sourceR resR.aggregation = k
      then [⟨tR, PyFloat.nan⟩] else [] := by
    intro k
    rw [specContribR, hRres, htR, hrr]
    by_cases hk : elemKey deviceR sourceR resR.aggregation = k
    · simp [hk, specValueOfReadingRes, hrnv]
    · simp [hk]
  refine ⟨g, ?_, ?_, ?_⟩
  · simp only [process_historical_values, hf1, except_bind_ok]
    exact hf2
  · rw [hv2, hv1, concatMapL_cons, concatMapL_nil, concatMapL_cons, concatMapL_nil,
      hcontribS_empty, hcontribR]
    simp [valsAt, alGet]
  · have hpres : (alGet g (elemKey deviceS sourceS resS.aggregation)).isSome = true := by
      rw [hp2]
      right
      rw [concatMapL_cons, concatMapL_nil, List.append_nil, specKeysOfS, hSres, hsr]
      simp
    cases hget : alGet g (elemKey deviceS sourceS resS.aggregation) with
    | none => rw [hget] at hpres; simp at hpres
    | some grp =>
        refine ⟨grp, rfl, ?_⟩
        have hvals := hv2 (elemKey deviceS sourceS resS.aggregation)
        rw [hv1, concatMapL_cons, concatMapL_nil, concatMapL_cons, concatMapL_nil,
          hcontribS_empty, hcontribR, if_neg hkdiff] at hvals
        rw [valsAt, hget] at hvals
        simpa [valsAt, alGet] using hvals

/-- C3 (witness): the asymmetry evaluated on concrete records `rrNoNum`
and `srNoNum`. -/
theorem C3_witness :
    ∃ g, process_historical_values ddMap1 fcMap1 cdMap1 [rrNoNum] [srNoNum] = .ok g ∧
      valsAt g (elemKey dev1 cdc1 none) = [⟨utc20240101, PyFloat.nan⟩] ∧
      ∃ grp, alGet g (elemKey dev1 cdcS none) = some grp ∧ grp.values = [] :=
  C3_missing_numberValue_asymmetry fcMap1 cdMap1 ddMap1 rrNoNum srNoNum
    {} {} cdc1 dev1 cdcS dev1 utc20240101 rfl rfl rfl rfl
    (by decide) (by decide) (by decide) (by decide) (by decide) (by decide)

/-! ## C10 — groups are created even when every sample is skipped -/

/-- A well-formed setting record resolves through the maps. -/
theorem wfS_resolve (fc : List (String × ControlledDeviceConstruct))
    (cd : List (String × String)) (dd : List (String × Device))
    (s : SettingSourceResult) (h : wfS fc cd dd s = true) :
    ∃ sd, specResolveS fc cd dd s = some sd := by
  unfold wfS at h
  cases hres : specResolveS fc cd dd s with
  | none => rw [hres] at h; simp at h
  | some sd => exact ⟨sd, rfl⟩

/-- Processing one setting record preserves distinctness of the dict's
keys (each element step writes a single key). -/
theorem processSettingRecord_nodup (dd : List (String × Device))
    (fc : List (String × ControlledDeviceConstruct)) (cd : List (String × String))
    (grouped : List (GroupKey × MetricValues)) (s : SettingSourceResult)
    (g' : List (GroupKey × MetricValues))
    (h : processSettingRecord dd fc cd grouped s = .ok g')
    (hnd : (grouped.map Prod.fst).Nodup) : (g'.map Prod.fst).Nodup := by
  simp only [processSettingRecord] at h
  cases h1 : alGet fc s.setting_id with
  | none => rw [h1] at h; simp at h
  | some source =>
  rw [h1] at h
  simp only [except_bind_ok] at h
  cases h2 : alGet cd s.setting_id with
  | none => rw [h2] at h; simp at h
  | some did =>
  rw [h2] at h
  simp only [except_bind_ok] at h
  cases h3 : alGet dd did with
  | none => rw [h3] at h; simp at h
  | some device =>
  rw [h3] at h
  simp only [except_bind_ok] at h
  cases hts : parse_dt_str s.time with
  | error e => rw [hts] at h; simp at h
  | ok t =>
  rw [hts] at h
  simp only [except_bind_ok] at h
  exact foldlM_preserves (fun d => (d.map Prod.fst).Nodup) _
    (fun b a b' hb hp => by
      obtain ⟨k, v, hkv⟩ := settingResStep_shape device source t b a b' hb
      rw [hkv]
      exact alSet_keys_nodup _ _ _ hp) s.results grouped g' h hnd

/-- C10: a setting record with at least one result element, all of them
lacking a `numberValue`, still creates its group entries: the facility's
output is a non-empty `MetricValues` list in which every entry has an
empty sample list. -/
theorem C10_empty_setting_groups (fc : List (String × ControlledDeviceConstruct))
    (cd : List (String × String)) (dd : List (String × Device))
    (s : SettingSourceResult) (hws : wfS fc cd dd s = true)
    (hne : s.results ≠ [])
    (hnv : ∀ res ∈ s.results, res.numberValue = none) :
    ∃ l, processedMetricValues dd fc cd [] [s] = .ok l ∧ l ≠ [] ∧
      ∀ mv ∈ l, mv.values = [] := by
  obtain ⟨g, hf2, hv2, hp2⟩ := foldSettingRecords_spec dd fc cd [s]
    ([] : List (GroupKey × MetricValues))
    (by intro x hx; rw [List.mem_singleton] at hx; subst hx; exact hws)
  obtain ⟨⟨source, device⟩, hres⟩ := wfS_resolve fc cd dd s hws
  have hproc : process_historical_values dd fc cd [] [s] = .ok g := by
    simp only [process_historical_values]
    exact hf2
  have hcontribS_empty : ∀ k, specContribS fc cd dd k s = [] := by
    intro k
    rw [specContribS, hres]
    cases parse_dt_str s.time with
    | error e => rfl
    | ok t =>
        have hfil : s.results.filter (fun res =>
            decide (elemKey device source res.aggregation = k) &&
            pyFloatTruthy res.numberValue) = [] := by
          rw [List.filter_eq_nil_iff]
          intro res hresmem
          rw [hnv res hresmem]
          simp [pyFloatTruthy]
        simp [hfil]
  have hrec : processSettingRecord dd fc cd [] s = .ok g := by
    rw [List.foldlM_cons] at hf2
    cases hx : processSettingRecord dd fc cd [] s with
    | error e => rw [hx] at hf2; simp at hf2
    | ok g0 =>
        rw [hx, except_bind_ok] at hf2
        have hgg : (Except.ok g0 : Except String (List (GroupKey × MetricValues))) = .ok g := hf2
        cases hgg
        rfl
  have hnd : (g.map Prod.fst).Nodup :=
    processSettingRecord_nodup dd fc cd [] s g hrec (by simp)
  obtain ⟨res0, hres0⟩ : ∃ res0, res0 ∈ s.results := by
    cases hsr : s.results with
    | nil => exact absurd hsr hne
    | cons a l => exact ⟨a, by simp [hsr]⟩
  have hpres : (alGet g (elemKey device source res0.aggregation)).isSome = true := by
    rw [hp2]
    right
    rw [concatMapL_cons, concatMapL_nil, List.append_nil, specKeysOfS, hres]
    exact List.mem_map.mpr ⟨res0, hres0, rfl⟩
  refine ⟨g.map Prod.snd, ?_, ?_, ?_⟩
  · simp only [processedMetricValues, hproc]
    rfl
  · intro hempty
    rw [List.map_eq_nil_iff] at hempty
    subst hempty
    simp [alGet] at hpres
  · intro mv hmv
    obtain ⟨kv, hkv, rfl⟩ := List.mem_map.mp hmv
    have hget : alGet g kv.1 = some kv.2 :=
      alGet_of_mem_nodup g kv.1 kv.2 hnd (by simpa using hkv)
    have hvk := hv2 kv.1
    rw [concatMapL_cons, concatMapL_nil, hcontribS_empty] at hvk
    simpa [valsAt, alGet, hget] using hvk

/-- C10 (witness): a setting record with one `numberValue`-less element
yields a facility output with exactly the empty-valued group entries. -/
theorem C10_witness :
    ∃ l, processedMetricValues ddMap1 fcMap1 cdMap1 [] [srNoNum] = .ok l ∧ l ≠ [] ∧
      ∀ mv ∈ l, mv.values = [] :=
  C10_empty_setting_groups fcMap1 cdMap1 ddMap1 srNoNum (by decide)
    (List.cons_ne_nil _ _) (by decide)

/-! ## Matcher lemmas (C4, C9) -/

/-- Presence after a write, in boolean form. -/
theorem alGet_alSet_isSome {K V : Type} [DecidableEq K]
    (d : List (K × V)) (k k' : K) (v : V) :
    (alGet (alSet d k v) k').isSome = ((alGet d k').isSome || decide (k' = k)) := by
  by_cases h : k' = k
  · subst h
    simp [alGet_alSet_self]
  · simp [alGet_alSet_ne _ _ _ _ h, h]

/-- Writing a fresh key appends it. -/
theorem alSet_of_get_none {K V : Type} [DecidableEq K]
    (d : List (K × V)) (k : K) (v : V) (h : alGet d k = none) :
    alSet d k v = d ++ [(k, v)] := by
  induction d with
  | nil => rfl
  | cons kv rest ih =>
      obtain ⟨k0, w⟩ := kv
      by_cases hk : k0 = k
      · subst hk
        simp [alGet] at h
      · simp only [alGet, if_neg hk] at h
        simp [alSet, hk, ih h]

/-- The construct scan never removes a key. -/
theorem scanConstructs_mono (metric_names : List String) (metric_regexps : List Re) :
    ∀ (cs : List ControlledDeviceConstruct)
      (result : List (String × ControlledDeviceConstruct)) (k : String),
      (alGet result k).isSome = true →
      (alGet (scanConstructs metric_names metric_regexps result cs) k).isSome = true := by
  intro cs
  induction cs with
  | nil => intro result k h; exact h
  | cons c rest ih =>
      intro result k h
      rw [scanConstructs]
      apply ih
      by_cases h1 : c.alias ∈ metric_names
      · simp only [if_pos h1, alGet_alSet_isSome, h, Bool.true_or]
      · by_cases h2 : metric_regexps.any (fun p => reMatch p c.alias)
        · simp only [if_neg h1, if_pos h2, alGet_alSet_isSome, h, Bool.true_or]
        · simpa only [if_neg h1, if_neg h2] using h

/-- A construct whose alias is in the exact-name set ends up in the scan's
result. -/
theorem scanConstructs_inserts (metric_names : List String) (metric_regexps : List Re) :
    ∀ (cs : List ControlledDeviceConstruct)
      (result : List (String × ControlledDeviceConstruct))
      (c : ControlledDeviceConstruct), c ∈ cs → c.alias ∈ metric_names →
      (alGet (scanConstructs metric_names metric_regexps result cs) c.id).isSome = true := by
  intro cs
  induction cs with
  | nil => intro result c h; cases h
  | cons c0 rest ih =>
      intro result c hmem halias
      rcases List.mem_cons.mp hmem with heq | htail
      · subst heq
        rw [scanConstructs]
        rw [if_pos halias]
        exact scanConstructs_mono metric_names metric_regexps rest _ c.id
          (by simp [alGet_alSet_isSome])
      · rw [scanConstructs]
        exact ih _ c htail halias

/-- One matcher kind iteration never removes a key. -/
theorem matcherKindStep_mono (device : Device) (metrics : List DeviceMetric)
    (acc : List (String × ControlledDeviceConstruct)) (mt : MetricType)
    (r' : List (String × ControlledDeviceConstruct))
    (h : matcherKindStep device metrics acc mt = .ok r') (k : String)
    (hk : (alGet acc k).isSome = true) : (alGet r' k).isSome = true := by
  simp only [matcherKindStep] at h
  cases hmc : ((metrics.filter (fun m =>
      decide (m.metric_type = mt) && decide (m.alias_regex ≠ ""))).map
      (fun m => m.alias_regex)).mapM re_compile with
  | error e => rw [hmc] at h; simp at h
  | ok ps =>
      rw [hmc, except_bind_ok] at h
      split at h
      · cases Except.ok.inj h
        exact hk
      · cases Except.ok.inj h
        exact scanConstructs_mono _ _ _ acc k hk

/-- One matcher kind iteration adds every construct of that kind whose
alias is among the kind's exact names. -/
theorem matcherKindStep_adds (device : Device) (metrics : List DeviceMetric)
    (acc : List (String × ControlledDeviceConstruct)) (mt : MetricType)
    (r' : List (String × ControlledDeviceConstruct))
    (h : matcherKindStep device metrics acc mt = .ok r')
    (c : ControlledDeviceConstruct) (hc : c ∈ device.constructsOfKind mt)
    (hal : c.alias ∈ (metrics.filter (fun m =>
      decide (m.metric_type = mt))).map (fun m => m.name)) :
    (alGet r' c.id).isSome = true := by
  simp only [matcherKindStep] at h
  cases hmc : ((metrics.filter (fun m =>
      decide (m.metric_type = mt) && decide (m.alias_regex ≠ ""))).map
      (fun m => m.alias_regex)).mapM re_compile with
  | error e => rw [hmc] at h; simp at h
  | ok ps =>
      rw [hmc, except_bind_ok] at h
      have hnonempty : ((metrics.filter (fun m =>
          decide (m.metric_type = mt))).map (fun m => m.name)).isEmpty = false := by
        cases hl : (metrics.filter (fun m =>
            decide (m.metric_type = mt))).map (fun m => m.name) with
        | nil => rw [hl] at hal; cases hal
        | cons a l => rfl
      rw [if_neg (by simp [hnonempty])] at h
      cases Except.ok.inj h
      exact scanConstructs_inserts _ ps (device.constructsOfKind mt) acc c hc hal

/-- Folding the kind iterations: once a kind whose exact names contain the
construct's alias is processed, the construct's id stays present. -/
theorem foldKinds_adds (device : Device) (metrics : List DeviceMetric)
    (kind : MetricType) (c : ControlledDeviceConstruct)
    (hc : c ∈ device.constructsOfKind kind)
    (hal : c.alias ∈ (metrics.filter (fun m =>
      decide (m.metric_type = kind))).map (fun m => m.name)) :
    ∀ (kinds : List MetricType) (acc : List (String × ControlledDeviceConstruct))
      (r : List (String × ControlledDeviceConstruct)), kind ∈ kinds →
      kinds.foldlM (matcherKindStep device metrics) acc = .ok r →
      (alGet r c.id).isSome = true := by
  intro kinds
  induction kinds with
  | nil => intro acc r hmem; cases hmem
  | cons k0 ks ih =>
      intro acc r hmem hfold
      rw [List.foldlM_cons] at hfold
      cases hstep : matcherKindStep device metrics acc k0 with
      | error e => rw [hstep] at hfold; simp at hfold
      | ok r1 =>
          rw [hstep, except_bind_ok] at hfold
          rcases List.mem_cons.mp hmem with heq | htail
          · subst heq
            have h1 := matcherKindStep_adds device metrics acc kind r1 hstep c hc hal
            exact foldlM_preserves (fun d => (alGet d c.id).isSome = true) _
              (fun b a b' hb hp => matcherKindStep_mono device metrics b a b' hb c.id hp)
              ks r1 r hfold h1
          · exact ih r1 r htail hfold

/-! ## C9 — empty-alias constructs ride the exact-name set -/

/-- C9: when the specs targeting a construct kind include an
alias-regex-based spec (whose `name` is the empty string), every construct
of that kind whose alias is empty is included in the match result,
whether or not any pattern matches it — the empty name sits in the
exact-name set. -/
theorem C9_empty_alias_included (device : Device) (metrics : List DeviceMetric)
    (kind : MetricType) (m : DeviceMetric)
    (r : List (String × ControlledDeviceConstruct))
    (hm : m ∈ metrics) (hmt : m.metric_type = kind) (hname : m.name = "")
    (_hregex : m.alias_regex ≠ "")
    (hok : get_filtered_constructs_by_id device metrics = .ok r)
    (c : ControlledDeviceConstruct) (hc : c ∈ device.constructsOfKind kind)
    (hal : c.alias = "") :
    (alGet r c.id).isSome = true := by
  have hkinds : kind ∈ metricTypeList := by
    cases kind <;> simp [metricTypeList]
  have halnames : c.alias ∈ (metrics.filter (fun m =>
      decide (m.metric_type = kind))).map (fun m => m.name) := by
    rw [hal]
    exact List.mem_map.mpr ⟨m, List.mem_filter.mpr ⟨hm, by simp [hmt]⟩, hname⟩
  exact foldKinds_adds device metrics kind c hc halnames metricTypeList [] r hkinds hok

/-- C9 (witness): with the `Cur.*` spec against `dev2`, the empty-alias
control point `p3` is included even though the pattern does not match the
empty string. -/
theorem C9_witness :
    (alGet [("p1", ControlledDeviceConstruct.cp cpCur),
            ("p3", ControlledDeviceConstruct.cp cpEmp)]
      (ControlledDeviceConstruct.cp cpEmp).id).isSome = true :=
  C9_empty_alias_included dev2 [specCur] MetricType.control_point specCur
    [("p1", ControlledDeviceConstruct.cp cpCur),
     ("p3", ControlledDeviceConstruct.cp cpEmp)]
    (by decide) rfl rfl (by decide) (by decide)
    (ControlledDeviceConstruct.cp cpEmp) (by decide) rfl

/-! ## C4 — prefix-anchored regex matching -/

/-- The construct scan from a dict whose keys are fresh appends exactly
the matching constructs, in device order. -/
theorem scanConstructs_characterization (metric_names : List String)
    (metric_regexps : List Re) :
    ∀ (cs : List ControlledDeviceConstruct)
      (acc : List (String × ControlledDeviceConstruct)),
      (∀ c ∈ cs, alGet acc c.id = none) →
      (cs.map (fun c => ControlledDeviceConstruct.id c)).Nodup →
      scanConstructs metric_names metric_regexps acc cs =
        acc ++ (cs.filter (fun c => decide (c.alias ∈ metric_names) ||
          metric_regexps.any (fun p => reMatch p c.alias))).map
          (fun c => (c.id, c)) := by
  intro cs
  induction cs with
  | nil => intro acc _ _; simp [scanConstructs]
  | cons c0 rest ih =>
      intro acc hfresh hnd
      simp only [List.map_cons, List.nodup_cons] at hnd
      obtain ⟨hc0, hndrest⟩ := hnd
      rw [scanConstructs, List.filter_cons]
      by_cases h1 : c0.alias ∈ metric_names
      · rw [if_pos h1]
        have hfresh0 : alGet acc c0.id = none := hfresh c0 (by simp)
        have hfresh' : ∀ c ∈ rest, alGet (alSet acc c0.id c0) c.id = none := by
          intro c hcm
          have hne : c.id ≠ c0.id := by
            intro hh
            exact hc0 (List.mem_map.mpr ⟨c, hcm, hh⟩)
          rw [alGet_alSet_ne _ _ _ _ hne]
          exact hfresh c (by simp [hcm])
        rw [ih (alSet acc c0.id c0) hfresh' hndrest,
          alSet_of_get_none acc c0.id c0 hfresh0]
        simp [h1, List.append_assoc]
      · by_cases h2 : metric_regexps.any (fun p => reMatch p c0.alias)
        · rw [if_neg h1, if_pos h2]
          have hfresh0 : alGet acc c0.id = none := hfresh c0 (by simp)
          have hfresh' : ∀ c ∈ rest, alGet (alSet acc c0.id c0) c.id = none := by
            intro c hcm
            have hne : c.id ≠ c0.id := by
              intro hh
              exact hc0 (List.mem_map.mpr ⟨c, hcm, hh⟩)
            rw [alGet_alSet_ne _ _ _ _ hne]
            exact hfresh c (by simp [hcm])
          rw [ih (alSet acc c0.id c0) hfresh' hndrest,
            alSet_of_get_none acc c0.id c0 hfresh0]
          simp [h1, h2, List.append_assoc]
        · rw [if_neg h1, if_neg h2]
          rw [ih acc (fun c hcm => hfresh c (by simp [hcm])) hndrest]
          simp [h1, h2]

/-- A kind iteration with no spec of that kind is the identity. -/
theorem matcherKindStep_skip (device : Device) (S : DeviceMetric)
    (acc : List (String × ControlledDeviceConstruct)) (mt : MetricType)
    (h : S.metric_type ≠ mt) :
    matcherKindStep device [S] acc mt = .ok acc := by
  simp only [matcherKindStep]
  rw [show [S].filter (fun m => decide (m.metric_type = mt)) = [] from by simp [h],
    show [S].filter (fun m => decide (m.metric_type = mt) &&
      decide (m.alias_regex ≠ "")) = [] from by simp [h]]
  rfl

/-- A kind iteration for the single spec's own kind scans that kind with
the spec's name and its compiled pattern. -/
theorem matcherKindStep_hit (device : Device) (S : DeviceMetric)
    (acc : List (String × ControlledDeviceConstruct)) (mt : MetricType) (re : Re)
    (hmt : S.metric_type = mt) (hregex : S.alias_regex ≠ "")
    (hre : re_compile S.alias_regex = .ok re) :
    matcherKindStep device [S] acc mt =
      .ok (scanConstructs [S.name] [re] acc (device.constructsOfKind mt)) := by
  simp only [matcherKindStep]
  rw [show [S].filter (fun m => decide (m.metric_type = mt)) = [S] from by simp [hmt],
    show [S].filter (fun m => decide (m.metric_type = mt) &&
      decide (m.alias_regex ≠ "")) = [S] from by simp [hmt, hregex]]
  simp only [List.map_cons, List.map_nil]
  rw [List.mapM_cons, hre]
  rfl

/-- The whole kind fold for a single spec scans the spec's kind once and
leaves the accumulator otherwise untouched. -/
theorem foldKinds_single (device : Device) (S : DeviceMetric) (re : Re)
    (hregex : S.alias_regex ≠ "") (hre : re_compile S.alias_regex = .ok re) :
    ∀ (kinds : List MetricType) (acc : List (String × ControlledDeviceConstruct)),
      kinds.Nodup →
      kinds.foldlM (matcherKindStep device [S]) acc = .ok
        (if S.metric_type ∈ kinds
         then scanConstructs [S.name] [re] acc (device.constructsOfKind S.metric_type)
         else acc) := by
  intro kinds
  induction kinds with
  | nil => intro acc _; simp; rfl
  | cons k0 ks ih =>
      intro acc hnd
      simp only [List.nodup_cons] at hnd
      rw [List.foldlM_cons]
      by_cases hk : S.metric_type = k0
      · rw [matcherKindStep_hit device S acc k0 re hk hregex hre, except_bind_ok,
          ih _ hnd.2]
        have hnot : S.metric_type ∉ ks := by rw [hk]; exact hnd.1
        rw [if_neg hnot, if_pos (by simp [hk]), hk]
      · rw [matcherKindStep_skip device S acc k0 hk, except_bind_ok, ih _ hnd.2]
        by_cases hmem : S.metric_type ∈ ks
        · rw [if_pos hmem, if_pos (by simp [hmem])]
        · rw [if_neg hmem, if_neg (by simp [hk, hmem])]

/-- The matcher on a single alias-regex spec: exactly the constructs of
the spec's kind whose alias is empty (the empty name in the exact-name
set) or prefix-matched by the compiled pattern, keyed by id, in device
order. -/
theorem matcher_single_spec (device : Device) (S : DeviceMetric) (re : Re)
    (hname : S.name = "") (hregex : S.alias_regex ≠ "")
    (hre : re_compile S.alias_regex = .ok re)
    (hnd : ((device.constructsOfKind S.metric_type).map
      (fun c => ControlledDeviceConstruct.id c)).Nodup) :
    get_filtered_constructs_by_id device [S] =
      .ok (((device.constructsOfKind S.metric_type).filter
        (fun c => decide (c.alias = "") || reMatch re c.alias)).map
        (fun c => (c.id, c))) := by
  have hscan : scanConstructs [S.name] [re] []
      (device.constructsOfKind S.metric_type) =
      ((device.constructsOfKind S.metric_type).filter
        (fun c => decide (c.alias = "") || reMatch re c.alias)).map
        (fun c => (c.id, c)) := by
    rw [scanConstructs_characterization [S.name] [re]
      (device.constructsOfKind S.metric_type) [] (fun c _ => rfl) hnd]
    rw [List.nil_append]
    congr 1
    apply List.filter_congr
    intro c _
    simp [hname, List.any_cons]
  have hmem : S.metric_type ∈ metricTypeList := by
    cases S.metric_type <;> simp [metricTypeList]
  have hnodup : metricTypeList.Nodup := by simp [metricTypeList]
  unfold get_filtered_constructs_by_id
  rw [foldKinds_single device S re hregex hre metricTypeList [] hnodup,
    if_pos hmem, hscan]

/-- C4 (amended): for a single alias-regex spec the matcher returns
exactly the constructs of the spec's kind whose alias the compiled
pattern matches anchored at position 0 — plus every construct of that
kind whose alias is the empty string, because the spec's empty `name`
lands in the exact-name set (see the counterexample). Concretely,
`Cur.*` matches `Current` but not `MotorCurrent` (prefix-anchored
`match`, not `fullmatch`). -/
theorem C4_amended :
    (∀ (device : Device) (S : DeviceMetric) (re : Re),
      S.name = "" → S.alias_regex ≠ "" → re_compile S.alias_regex = .ok re →
      ((device.constructsOfKind S.metric_type).map
        (fun c => ControlledDeviceConstruct.id c)).Nodup →
      get_filtered_constructs_by_id device [S] =
        .ok (((device.constructsOfKind S.metric_type).filter
          (fun c => decide (c.alias = "") || reMatch re c.alias)).map
          (fun c => (c.id, c)))) ∧
    (re_compile "Cur.*").map (fun r => reMatch r "Current") = .ok true ∧
    (re_compile "Cur.*").map (fun r => reMatch r "MotorCurrent") = .ok false := by
  refine ⟨fun device S re h1 h2 h3 h4 =>
    matcher_single_spec device S re h1 h2 h3 h4, ?_, ?_⟩
  · decide
  · decide

/-- C4 (witness): the amended statement evaluated against `dev2` with the
`Cur.*` spec. -/
theorem C4_witness :
    get_filtered_constructs_by_id dev2 [specCur] =
      .ok (((dev2.constructsOfKind specCur.metric_type).filter
        (fun c => decide (c.alias = "") || reMatch reCur c.alias)).map
        (fun c => (c.id, c))) :=
  C4_amended.1 dev2 specCur reCur rfl (by decide) (by decide) (by decide)

/-- C4 (counterexample): the match result is not exactly the
pattern-matched constructs — the empty-alias control point `p3` is
returned although `Cur.*` does not match the empty alias. -/
theorem C4_counterexample :
    get_filtered_constructs_by_id dev2 [specCur] =
      .ok [("p1", ControlledDeviceConstruct.cp cpCur),
           ("p3", ControlledDeviceConstruct.cp cpEmp)] ∧
    (re_compile "Cur.*").map (fun r => reMatch r "") = .ok false := by
  exact ⟨by decide, by decide⟩

/-! ## C2 — naive timestamps and the network trace -/

/-- With a naive `start` or `end`, the reading client call validates and
raises before issuing its request: empty trace, error result. -/
theorem get_hist_reading_naive (env : Env) (org agent : String)
    (start «end» : Option PyDateTime) (queries : List HistoricalReadingQuery)
    (h : isNaiveOpt start = true ∨ isNaiveOpt «end» = true) :
    (get_historical_reading_values env org agent start «end» queries).1 = [] ∧
    isErr (get_historical_reading_values env org agent start «end» queries).2 = true := by
  by_cases hs : isNaiveOpt start = true
  · simp [get_historical_reading_values, hs, isErr]
  · have he : isNaiveOpt «end» = true := by tauto
    simp only [Bool.not_eq_true] at hs
    simp [get_historical_reading_values, hs, he, isErr]

/-- With a naive `start` or `end`, the setting client call validates and
raises before issuing its request. -/
theorem get_hist_setting_naive (env : Env) (org agent : String)
    (start «end» : Option PyDateTime) (queries : List HistoricalSettingQuery)
    (h : isNaiveOpt start = true ∨ isNaiveOpt «end» = true) :
    (get_historical_setting_values env org agent start «end» queries).1 = [] ∧
    isErr (get_historical_setting_values env org agent start «end» queries).2 = true := by
  by_cases hs : isNaiveOpt start = true
  · simp [get_historical_setting_values, hs, isErr]
  · have he : isNaiveOpt «end» = true := by tauto
    simp only [Bool.not_eq_true] at hs
    simp [get_historical_setting_values, hs, he, isErr]

/-- The facility-level reading wrapper under a naive bound: empty trace,
error result. -/
theorem mr_reading_naive (env : Env) (facility : Facility) (agent : String)
    (start «end» : Option PyDateTime) (queries : List HistoricalReadingQuery)
    (h : isNaiveOpt start = true ∨ isNaiveOpt «end» = true) :
    (mr_get_historical_reading_values env facility agent start «end» queries).1 = [] ∧
    isErr (mr_get_historical_reading_values env facility agent start «end» queries).2 = true := by
  obtain ⟨h1, h2⟩ := get_hist_reading_naive env facility.organization_id agent
    start «end» queries h
  unfold mr_get_historical_reading_values
  constructor
  · exact h1
  · cases hr : (get_historical_reading_values env facility.organization_id agent
        start «end» queries).2 with
    | error e => simp [hr, isErr]
    | ok v => rw [hr] at h2; simp [isErr] at h2

/-- The facility-level setting wrapper under a naive bound. -/
theorem mr_setting_naive (env : Env) (facility : Facility) (agent : String)
    (start «end» : Option PyDateTime) (queries : List HistoricalSettingQuery)
    (h : isNaiveOpt start = true ∨ isNaiveOpt «end» = true) :
    (mr_get_historical_setting_values env facility agent start «end» queries).1 = [] ∧
    isErr (mr_get_historical_setting_values env facility agent start «end» queries).2 = true := by
  obtain ⟨h1, h2⟩ := get_hist_setting_naive env facility.organization_id agent
    start «end» queries h
  unfold mr_get_historical_setting_values
  constructor
  · exact h1
  · cases hr : (get_historical_setting_values env facility.organization_id agent
        start «end» queries).2 with
    | error e => simp [hr, isErr]
    | ok v => rw [hr] at h2; simp [isErr] at h2

/-- One facility iteration under a naive bound issues no historical
request: its trace holds at most the device-listing call. -/
theorem facilityStep_naive (env : Env)
    (mbdk : List (String × List DeviceMetric)) (start «end» : Option PyDateTime)
    (aggs : List String) (result : List (String × List MetricValues))
    (facility : Facility)
    (h : isNaiveOpt start = true ∨ isNaiveOpt «end» = true) :
    ∀ c ∈ (facilityStep env mbdk start «end» aggs result facility).1,
      isHistoricalCall c = false := by
  unfold facilityStep
  cases facility.agents with
  | nil => intro c hc; cases hc
  | cons agent restAgents =>
      dsimp only
      cases hfold : List.foldlM (deviceStep mbdk aggs) ({} : FacilityBuildState)
          (env.devicesFor facility.organization_id agent.agent_id) with
      | error e =>
          intro c hc
          rcases List.mem_cons.mp hc with heq | htail
          · subst heq; rfl
          · cases htail
      | ok st =>
          by_cases hrq : st.reading_queries.length > 0
          · obtain ⟨hr1, hr2⟩ := mr_reading_naive env facility agent.agent_id
              start «end» st.reading_queries h
            simp only [if_pos hrq]
            cases hmr : mr_get_historical_reading_values env facility agent.agent_id
                start «end» st.reading_queries with
            | mk rlog rres =>
                have hrlog : rlog = [] := by rw [← hr1, hmr]
                have hrerr : isErr rres = true := by rw [← hr2, hmr]
                cases rres with
                | ok v => simp [isErr] at hrerr
                | error e =>
                    subst hrlog
                    intro c hc
                    simp only [List.append_nil] at hc
                    rcases List.mem_cons.mp hc with heq | htail
                    · subst heq; rfl
                    · cases htail
          · simp only [if_neg hrq]
            by_cases hsq : st.setting_queries.length > 0
            · obtain ⟨hs1, hs2⟩ := mr_setting_naive env facility agent.agent_id
                start «end» st.setting_queries h
              simp only [if_pos hsq]
              cases hms : mr_get_historical_setting_values env facility agent.agent_id
                  start «end» st.setting_queries with
              | mk slog sres =>
                  have hslog : slog = [] := by rw [← hs1, hms]
                  have hserr : isErr sres = true := by rw [← hs2, hms]
                  cases sres with
                  | ok v => simp [isErr] at hserr
                  | error e =>
                      subst hslog
                      intro c hc
                      simp only [List.append_nil] at hc
                      rcases List.mem_cons.mp hc with heq | htail
                      · subst heq; rfl
                      · cases htail
            · simp only [if_neg hsq]
              cases hpv : processedMetricValues st.device_id_to_device
                  st.filtered_constructs_by_id st.construct_id_to_device_id [] [] with
              | error e =>
                  intro c hc
                  simp only [List.append_nil] at hc
                  rcases List.mem_cons.mp hc with heq | htail
                  · subst heq; rfl
                  · cases htail
              | ok mvs =>
                  intro c hc
                  simp only [List.append_nil] at hc
                  rcases List.mem_cons.mp hc with heq | htail
                  · subst heq; rfl
                  · cases htail

/-- The facility loop under a naive bound adds no historical request to
the trace. -/
theorem foldFacilities_naive (env : Env)
    (mbdk : List (String × List DeviceMetric)) (start «end» : Option PyDateTime)
    (aggs : List String)
    (h : isNaiveOpt start = true ∨ isNaiveOpt «end» = true) :
    ∀ (fs : List Facility) (log : List NetCall)
      (result : List (String × List MetricValues)),
      (∀ c ∈ log, isHistoricalCall c = false) →
      ∀ c ∈ (foldFacilities env mbdk start «end» aggs log result fs).1,
        isHistoricalCall c = false := by
  intro fs
  induction fs with
  | nil => intro log result hlog c hc; exact hlog c hc
  | cons f rest ih =>
      intro log result hlog
      rw [foldFacilities]
      cases hstep : facilityStep env mbdk start «end» aggs result f with
      | mk flog r =>
          have hflog : ∀ c ∈ flog, isHistoricalCall c = false := by
            intro c hc
            apply facilityStep_naive env mbdk start «end» aggs result f h
            rw [hstep]
            exact hc
          cases r with
          | error e =>
              intro c hc
              rcases List.mem_append.mp hc with h1 | h2
              · exact hlog c h1
              · exact hflog c h2
          | ok result2 =>
              apply ih (log ++ flog) result2
              intro c hc
              rcases List.mem_append.mp hc with h1 | h2
              · exact hlog c h1
              · exact hflog c h2

/-- C2 (amended): a naive `start` or `end` is rejected by the client-call
validation before the historical request is issued — the trace of a `read`
with a naive bound never contains a readings or settings query. The
rejection happens only at that boundary, after the facility-listing and
device-listing requests (see the counterexample). -/
theorem C2_amended (env : Env) (filter : Filter) (start «end» : Option PyDateTime)
    (aggs : List String)
    (h : isNaiveOpt start = true ∨ isNaiveOpt «end» = true) :
    ∀ c ∈ (read env filter start «end» aggs).1, isHistoricalCall c = false := by
  unfold read
  by_cases hm : filter.metrics.isEmpty
  · simp only [if_pos hm]
    intro c hc
    cases hc
  · simp only [if_neg hm]
    cases hb : buildMetricsByDeviceKind filter.metrics with
    | error e => intro c hc; cases hc
    | ok mbdk =>
        cases hf : filter_facilities env filter.facilities with
        | mk flog fres =>
            have hflog : ∀ c ∈ flog, isHistoricalCall c = false := by
              have hlf : flog = [NetCall.listFacilities] := by
                unfold filter_facilities at hf
                split at hf
                · exact (congrArg Prod.fst hf).symm
                · dsimp only at hf
                  split at hf
                  · exact (congrArg Prod.fst hf).symm
                  · exact (congrArg Prod.fst hf).symm
              subst hlf
              intro c hc
              rcases List.mem_cons.mp hc with heq | htail
              · subst heq; rfl
              · cases htail
            cases fres with
            | error e => exact hflog
            | ok facilities =>
                exact foldFacilities_naive env mbdk start «end» aggs h
                  facilities flog [] hflog

/-- C2 (witness): a naive start against the one-facility environment —
no historical request appears in the trace. -/
theorem C2_witness :
    (read env1 ⟨[], [specCur]⟩ (some naiveDT) none ["avg"]).1.filter
      isHistoricalCall = [] := by
  have h := C2_amended env1 ⟨[], [specCur]⟩ (some naiveDT) none ["avg"] (Or.inl rfl)
  rw [List.filter_eq_nil_iff]
  intro c hc
  simp [h c hc]

/-- C2 (counterexample): the naive-start error is not raised before any
network call — the same `read` issues the facility-listing and
device-listing requests first and only then fails (wrapped by the
facility-level handler around the reading-values call). -/
theorem C2_counterexample :
    read env1 ⟨[], [specCur]⟩ (some naiveDT) none ["avg"] =
      ([NetCall.listFacilities, NetCall.listDevices "o" "a"],
       .error ("Error retrieving historical values for facility Fac: " ++
         "start must be timezone aware")) := by
  decide

end AtlasSDK
